import Mathlib

/-!
Shallow embedding of the collaborative Lean editor server (`server.py`):
the JSON value model and Content-Length framing (`encode_lsp_message`,
`read_lsp_message`), URI validation (`_validate_lsp_message_uris`),
the per-message inbound step of `lsp_ws_handler.ws_to_stdin`, the
process manager (`LeanProcessManager.spawn` / `kill`), and the room
registry (`Server.get_room`).

Byte streams and strings are modelled as lists of natural-number code
points; the bodies emitted by `json.dumps(..., ensure_ascii default)`
are pure ASCII, so UTF-8 encoding is the identity on them.  JSON
numbers are modelled as integers (float payloads are outside the
model), and Python `None` is identified with JSON `null`.
-/

set_option linter.unusedVariables false

namespace Bridge

/-- Unicode code points of a Lean string literal, used to state concrete
inputs such as `"not-a-uri"`. -/
def strCodes (s : String) : List Nat := s.data.map Char.toNat

/-- JSON values as handled by Python's `json` module: objects are
insertion-ordered keyed lists, numbers are integers in this model,
strings are lists of unicode scalar code points. -/
inductive Json where
  | null : Json
  | bool (b : Bool) : Json
  | num (n : Int) : Json
  | str (s : List Nat) : Json
  | arr (xs : List Json) : Json
  | obj (kvs : List (List Nat × Json)) : Json

/-- Decimal digits of `n`, least significant first (always nonempty). -/
def natDigitsRev (n : Nat) : List Nat :=
  if h : n < 10 then [n] else n % 10 :: natDigitsRev (n / 10)
decreasing_by exact Nat.div_lt_self (by omega) (by omega)

/-- ASCII code points of the decimal representation of `n`, as printed by
Python's `str` on a nonnegative int. -/
def natCodes (n : Nat) : List Nat := (natDigitsRev n).reverse.map (fun d => d + 48)

/-- ASCII code points of Python's `str` of an arbitrary int. -/
def intCodes (n : Int) : List Nat :=
  if n < 0 then 45 :: natCodes n.natAbs else natCodes n.natAbs

/-- Lowercase hex digit for `d < 16`, as emitted in json escape sequences. -/
def hexDig (d : Nat) : Nat := if d < 10 then 48 + d else 87 + d

/-- Four lowercase hex digits of `n < 65536` (the json `\uXXXX` payload). -/
def hex4Codes (n : Nat) : List Nat :=
  [hexDig (n / 4096 % 16), hexDig (n / 256 % 16), hexDig (n / 16 % 16), hexDig (n % 16)]

/-- Escape of one character in a json string under `ensure_ascii=True`
(the `json.dumps` default): printable ASCII other than quote and
backslash is kept, the two-character shorthands are used for the usual
control characters, everything else becomes `\uXXXX`, with a surrogate
pair for code points beyond the basic plane. -/
def escChar (c : Nat) : List Nat :=
  if c = 34 then [92, 34]
  else if c = 92 then [92, 92]
  else if c = 8 then [92, 98]
  else if c = 9 then [92, 116]
  else if c = 10 then [92, 110]
  else if c = 12 then [92, 102]
  else if c = 13 then [92, 114]
  else if c < 32 then 92 :: 117 :: hex4Codes c
  else if c ≤ 126 then [c]
  else if c ≤ 65535 then 92 :: 117 :: hex4Codes c
  else
    (92 :: 117 :: hex4Codes (55296 + (c - 65536) / 1024)) ++
      (92 :: 117 :: hex4Codes (56320 + (c - 65536) % 1024))

/-- Escaped body of a json string. -/
def escStr : List Nat → List Nat
  | [] => []
  | c :: r => escChar c ++ escStr r

/-- `json.dumps` of a string: a double-quoted escaped body. -/
def dumpStr (s : List Nat) : List Nat := 34 :: escStr s ++ [34]

mutual

/-- `json.dumps` with default options: separators `", "` and `": "`,
`ensure_ascii` escaping, no extra whitespace. -/
def dumps : Json → List Nat
  | .null => [110, 117, 108, 108]
  | .bool true => [116, 114, 117, 101]
  | .bool false => [102, 97, 108, 115, 101]
  | .num n => intCodes n
  | .str s => dumpStr s
  | .arr [] => [91, 93]
  | .arr (x :: xs) => 91 :: (dumps x ++ sepElems xs) ++ [93]
  | .obj [] => [123, 125]
  | .obj ((k, v) :: kvs) => 123 :: (dumpStr k ++ 58 :: 32 :: dumps v ++ sepMembers kvs) ++ [125]

/-- Remaining array elements, each preceded by `", "`. -/
def sepElems : List Json → List Nat
  | [] => []
  | x :: xs => 44 :: 32 :: dumps x ++ sepElems xs

/-- Remaining object members, each preceded by `", "`. -/
def sepMembers : List (List Nat × Json) → List Nat
  | [] => []
  | (k, v) :: kvs => 44 :: 32 :: dumpStr k ++ 58 :: 32 :: dumps v ++ sepMembers kvs

end

/-- Valid unicode scalar code point (what a Python `str` character that
is not a lone surrogate can be). -/
def validScalarB (c : Nat) : Bool := decide (c < 55296 ∨ (57343 < c ∧ c ≤ 1114111))

/-- Key occurs in an object member list. -/
def keyMem : List Nat → List (List Nat × Json) → Bool
  | _, [] => false
  | k, (k0, _) :: t => decide (k0 = k) || keyMem k t

mutual

/-- Well-formed json value originating from a Python object: strings made
of scalar code points, object keys distinct (Python dicts cannot hold
duplicate keys). -/
def wfJ : Json → Bool
  | .null => true
  | .bool _ => true
  | .num _ => true
  | .str s => s.all validScalarB
  | .arr xs => wfElems xs
  | .obj kvs => wfMembers kvs

/-- All elements well formed. -/
def wfElems : List Json → Bool
  | [] => true
  | x :: xs => wfJ x && wfElems xs

/-- All members well formed with pairwise-distinct keys. -/
def wfMembers : List (List Nat × Json) → Bool
  | [] => true
  | (k, v) :: kvs => k.all validScalarB && wfJ v && !keyMem k kvs && wfMembers kvs

end

/-- Json whitespace recognised by the decoder. -/
def wsB (c : Nat) : Bool := decide (c = 32 ∨ c = 9 ∨ c = 10 ∨ c = 13)

/-- Drop leading json whitespace. -/
def skipWs : List Nat → List Nat
  | [] => []
  | c :: r => if wsB c then skipWs r else c :: r

/-- ASCII decimal digit. -/
def isDigitB (c : Nat) : Bool := decide (48 ≤ c ∧ c ≤ 57)

/-- Value of a hex digit character (upper or lower case accepted). -/
def hexValD (c : Nat) : Option Nat :=
  if 48 ≤ c ∧ c ≤ 57 then some (c - 48)
  else if 97 ≤ c ∧ c ≤ 102 then some (c - 87)
  else if 65 ≤ c ∧ c ≤ 70 then some (c - 55)
  else none

/-- Value of the first four characters read as hex digits. -/
def hex4Val : List Nat → Option Nat
  | a :: b :: c :: d :: _ =>
    match hexValD a, hexValD b, hexValD c, hexValD d with
    | some x, some y, some z, some w => some (((x * 16 + y) * 16 + z) * 16 + w)
    | _, _, _, _ => none
  | _ => none

/-- Parse one json string escape after the backslash, returning the decoded
code point and the number of characters consumed.  Surrogate pairs are
combined as Python's decoder does; a lone surrogate is rejected (the
model's strings hold unicode scalars only). -/
def parseEsc (r : List Nat) : Option (Nat × Nat) :=
  match r with
  | [] => none
  | e :: t =>
    if e = 34 then some (34, 1)
    else if e = 92 then some (92, 1)
    else if e = 47 then some (47, 1)
    else if e = 98 then some (8, 1)
    else if e = 102 then some (12, 1)
    else if e = 110 then some (10, 1)
    else if e = 114 then some (13, 1)
    else if e = 116 then some (9, 1)
    else if e = 117 then
      match hex4Val t with
      | none => none
      | some n =>
        if 55296 ≤ n ∧ n ≤ 56319 then
          match t.drop 4 with
          | 92 :: 117 :: t2 =>
            match hex4Val t2 with
            | none => none
            | some m =>
              if 56320 ≤ m ∧ m ≤ 57343 then
                some (65536 + (n - 55296) * 1024 + (m - 56320), 11)
              else none
          | _ => none
        else if 56320 ≤ n ∧ n ≤ 57343 then none
        else some (n, 5)
    else none

/-- Parse the body of a json string after the opening quote, in strict mode
(raw control characters rejected), up to and including the closing quote. -/
def parseStringRest (cs : List Nat) : Option (List Nat × List Nat) :=
  match cs with
  | [] => none
  | c :: r =>
    if c = 34 then some ([], r)
    else if c = 92 then
      match parseEsc r with
      | none => none
      | some (x, k) =>
        match parseStringRest (r.drop k) with
        | none => none
        | some (s, rest) => some (x :: s, rest)
    else if c < 32 then none
    else
      match parseStringRest r with
      | none => none
      | some (s, rest) => some (c :: s, rest)
termination_by cs.length
decreasing_by
  all_goals simp [List.length_drop]
  all_goals omega

/-- Longest leading run of decimal digits. -/
def takeDigits : List Nat → List Nat × List Nat
  | [] => ([], [])
  | c :: r =>
    if isDigitB c then
      let p := takeDigits r
      (c :: p.1, p.2)
    else ([], c :: r)

/-- Numeric value of a digit-character run. -/
def digitsToNat (ds : List Nat) : Nat := ds.foldl (fun a d => 10 * a + (d - 48)) 0

/-- After an integer literal the next character must not extend it into a
float (fraction or exponent); the model covers integers only. -/
def numTailOk (cs : List Nat) : Bool :=
  match cs with
  | [] => true
  | c :: _ => decide (¬(c = 46 ∨ c = 101 ∨ c = 69))

/-- Parse an integer json number (an optional minus sign and digits). -/
def parseNum (cs : List Nat) : Option (Json × List Nat) :=
  match cs with
  | [] => none
  | c :: r =>
    if c = 45 then
      let p := takeDigits r
      if p.1 = [] then none
      else if numTailOk p.2 then some (.num (-(digitsToNat p.1 : Int)), p.2) else none
    else
      let p := takeDigits (c :: r)
      if p.1 = [] then none
      else if numTailOk p.2 then some (.num ((digitsToNat p.1 : Int)), p.2) else none

/-- Python dict insertion: an existing key keeps its position and gets the
new value, a new key is appended. -/
def dictInsert : List (List Nat × Json) → List Nat → Json → List (List Nat × Json)
  | [], k, v => [(k, v)]
  | (k0, v0) :: t, k, v =>
    if k0 = k then (k0, v) :: t else (k0, v0) :: dictInsert t k v

mutual

/-- Fueled json value parser (the fuel bounds nesting; `loads` supplies
enough for any input). -/
def parseVal : Nat → List Nat → Option (Json × List Nat)
  | 0, _ => none
  | Nat.succ fuel, cs =>
    match cs with
    | [] => none
    | c :: r =>
      if c = 110 then (if r.take 3 = [117, 108, 108] then some (.null, r.drop 3) else none)
      else if c = 116 then (if r.take 3 = [114, 117, 101] then some (.bool true, r.drop 3) else none)
      else if c = 102 then (if r.take 4 = [97, 108, 115, 101] then some (.bool false, r.drop 4) else none)
      else if c = 34 then
        match parseStringRest r with
        | none => none
        | some (s, rest) => some (.str s, rest)
      else if c = 91 then
        match skipWs r with
        | [] => none
        | d :: r2 => if d = 93 then some (.arr [], r2) else parseElems fuel (d :: r2)
      else if c = 123 then
        match skipWs r with
        | [] => none
        | d :: r2 => if d = 125 then some (.obj [], r2) else parseMembers fuel (d :: r2) []
      else if c = 45 ∨ isDigitB c = true then parseNum (c :: r)
      else none

/-- Parse the elements of a nonempty json array after the opening bracket. -/
def parseElems : Nat → List Nat → Option (Json × List Nat)
  | 0, _ => none
  | Nat.succ fuel, cs =>
    match parseVal fuel cs with
    | none => none
    | some (x, rest) =>
      match skipWs rest with
      | [] => none
      | d :: r2 =>
        if d = 44 then
          match parseElems fuel (skipWs r2) with
          | some (.arr xs, rest2) => some (.arr (x :: xs), rest2)
          | _ => none
        else if d = 93 then some (.arr [x], r2)
        else none

/-- Parse the members of a nonempty json object after the opening brace,
building the dict with Python's insertion semantics. -/
def parseMembers : Nat → List Nat → List (List Nat × Json) → Option (Json × List Nat)
  | 0, _, _ => none
  | Nat.succ fuel, cs, acc =>
    match cs with
    | [] => none
    | c :: r =>
      if c = 34 then
        match parseStringRest r with
        | none => none
        | some (k, r1) =>
          match skipWs r1 with
          | [] => none
          | d :: r2 =>
            if d = 58 then
              match parseVal fuel (skipWs r2) with
              | none => none
              | some (v, r3) =>
                let acc2 := dictInsert acc k v
                match skipWs r3 with
                | [] => none
                | e :: r4 =>
                  if e = 44 then parseMembers fuel (skipWs r4) acc2
                  else if e = 125 then some (.obj acc2, r4)
                  else none
            else none
      else none

end

/-- `json.loads` on the decoded body: parse one value surrounded by
optional whitespace, rejecting trailing data. -/
def loads (cs : List Nat) : Option Json :=
  match parseVal (cs.length + 1) (skipWs cs) with
  | some (j, rest) => if skipWs rest = [] then some j else none
  | none => none

/-- `encode_lsp_message`: the ASCII bytes of
`"Content-Length: <len(body)>\r\n\r\n"` followed by the UTF-8 body
(pure ASCII under `ensure_ascii`, so bytes coincide with code points). -/
def encodeLspMessage (j : Json) : List Nat :=
  [67, 111, 110, 116, 101, 110, 116, 45, 76, 101, 110, 103, 116, 104, 58, 32] ++
    natCodes (dumps j).length ++ [13, 10] ++ [13, 10] ++ dumps j

/-- `StreamReader.readline`: everything up to and including the first
newline byte, or the whole remainder at end of stream. -/
def readLine (s : List Nat) : List Nat × List Nat :=
  match s.dropWhile (fun x => decide (x ≠ 10)) with
  | [] => (s, [])
  | _ :: r2 => (s.takeWhile (fun x => decide (x ≠ 10)) ++ [10], r2)

/-- `bytes.decode("ascii", errors="replace")`: bytes above 127 become the
replacement character. -/
def asciiRep (c : Nat) : Nat := if c ≤ 127 then c else 65533

/-- Characters removed by `str.strip()` (ASCII range). -/
def stripB (c : Nat) : Bool := decide (c = 32 ∨ (9 ≤ c ∧ c ≤ 13))

/-- `str.strip()`: whitespace removed from both ends. -/
def stripPy (l : List Nat) : List Nat :=
  ((l.dropWhile stripB).reverse.dropWhile stripB).reverse

/-- `str.lower()` on ASCII text. -/
def lowerAscii (l : List Nat) : List Nat :=
  l.map (fun c => if 65 ≤ c ∧ c ≤ 90 then c + 32 else c)

/-- `str.startswith`. -/
def beginsWith : List Nat → List Nat → Bool
  | [], _ => true
  | _ :: _, [] => false
  | p :: ps, c :: cs => decide (p = c) && beginsWith ps cs

/-- `s.split(":", 1)[1]`: everything after the first colon (callers have
already checked that a colon occurs). -/
def afterColon (l : List Nat) : List Nat :=
  (l.dropWhile (fun c => decide (c ≠ 58))).drop 1

/-- Python `int(str)`: optional sign and decimal digits after stripping
whitespace; anything else raises `ValueError`, modelled as `none`. -/
def pyInt (l : List Nat) : Option Int :=
  match stripPy l with
  | [] => none
  | c :: r =>
    if c = 45 then
      if r ≠ [] ∧ r.all isDigitB then some (-(digitsToNat r : Int)) else none
    else if c = 43 then
      if r ≠ [] ∧ r.all isDigitB then some ((digitsToNat r : Int)) else none
    else if (c :: r).all isDigitB then some ((digitsToNat (c :: r) : Int)) else none

/-- Outcome of the header loop of `read_lsp_message`. -/
inductive HeaderOut where
  | eofOut : HeaderOut
  | exnOut : HeaderOut
  | doneOut (cl : Int) (rest : List Nat) : HeaderOut
deriving DecidableEq

/-- Lowercase `"content-length:"`. -/
def clLowerCodes : List Nat :=
  [99, 111, 110, 116, 101, 110, 116, 45, 108, 101, 110, 103, 116, 104, 58]

/-- The header loop of `read_lsp_message`: read lines until an empty line,
remembering the last `Content-Length` value (case-insensitive); an empty
read means end of stream, a malformed integer raises. -/
def readHeaders : List Nat → Int → HeaderOut
  | [], _ => .eofOut
  | c :: s, cl =>
    let line := (readLine (c :: s)).1
    let rest := (readLine (c :: s)).2
    if line = [] then .eofOut
    else
      let ls := stripPy (line.map asciiRep)
      if ls = [] then .doneOut cl rest
      else if beginsWith clLowerCodes (lowerAscii ls) then
        match pyInt (afterColon ls) with
        | none => .exnOut
        | some n => readHeaders rest n
      else readHeaders rest cl
termination_by s _ => s.length
decreasing_by
  all_goals
    simp only [readLine]
    split
    next heq => simp
    next c2 r2 heq =>
      have h1 := (List.dropWhile_suffix (l := c :: s) (fun x => decide (x ≠ 10))).length_le
      have h2 := congrArg List.length heq
      simp only [List.length_cons] at h1 h2
      show r2.length < (c :: s).length
      simp only [List.length_cons]
      omega

/-- Result of one `read_lsp_message` call: `retNone` is the `None` return
(used both at end of stream and when no length header was seen),
`retMsg` a decoded message, `exnErr` an exception escaping the call
(bad length literal, truncated body, or body parse failure). -/
inductive ReadResult where
  | retNone : ReadResult
  | retMsg (j : Json) : ReadResult
  | exnErr : ReadResult

/-- `read_lsp_message` on a byte stream, returning the outcome and the
unconsumed remainder of the stream. -/
def readLspMessage (s : List Nat) : ReadResult × List Nat :=
  match readHeaders s (-1) with
  | .eofOut => (.retNone, [])
  | .exnOut => (.exnErr, [])
  | .doneOut cl rest =>
    if cl < 0 then (.retNone, rest)
    else
      let n := cl.toNat
      if rest.length < n then (.exnErr, [])
      else
        match loads (rest.take n) with
        | some j => (.retMsg j, rest.drop n)
        | none => (.exnErr, rest.drop n)

/-- ASCII letter. -/
def isAlphaAscii (c : Nat) : Bool := decide ((65 ≤ c ∧ c ≤ 90) ∨ (97 ≤ c ∧ c ≤ 122))

/-- Characters allowed in a URL scheme by `urllib.parse`. -/
def schemeCharB (c : Nat) : Bool :=
  isAlphaAscii c || isDigitB c || decide (c = 43 ∨ c = 45 ∨ c = 46)

/-- Result of `urllib.parse.urlparse` (the components the server looks at). -/
structure UrlParts where
  scheme : List Nat
  netloc : List Nat
  path : List Nat
  query : List Nat
  fragment : List Nat
deriving DecidableEq

/-- `urllib.parse.urlparse` on ASCII input: split off a scheme when the text
before the first colon is a nonempty letter-led run of scheme characters,
then `//netloc` up to the next `/`, `?` or `#`, then fragment and query. -/
def urlParse (url : List Nat) : UrlParts :=
  let pre := url.takeWhile (fun c => decide (c ≠ 58))
  let post := url.dropWhile (fun c => decide (c ≠ 58))
  let hasScheme := decide (post ≠ []) && decide (pre ≠ []) &&
    (match pre with | c :: _ => isAlphaAscii c | [] => false) && pre.all schemeCharB
  let scheme := if hasScheme then lowerAscii pre else []
  let rest0 := if hasScheme then post.drop 1 else url
  let hasNetloc := decide (rest0.take 2 = [47, 47])
  let afterSlashes := rest0.drop 2
  let netloc := if hasNetloc
    then afterSlashes.takeWhile (fun c => decide (¬(c = 47 ∨ c = 63 ∨ c = 35))) else []
  let rest1 := if hasNetloc
    then afterSlashes.dropWhile (fun c => decide (¬(c = 47 ∨ c = 63 ∨ c = 35))) else rest0
  let beforeFrag := rest1.takeWhile (fun c => decide (c ≠ 35))
  let fragment := (rest1.dropWhile (fun c => decide (c ≠ 35))).drop 1
  let path := beforeFrag.takeWhile (fun c => decide (c ≠ 63))
  let query := (beforeFrag.dropWhile (fun c => decide (c ≠ 63))).drop 1
  ⟨scheme, netloc, path, query, fragment⟩

/-- `_is_valid_file_uri`: the value must be a string whose parse has scheme
exactly `file` and a nonempty path. -/
def isValidFileUri (v : Json) : Bool :=
  match v with
  | .str s =>
    let u := urlParse s
    decide (u.scheme = strCodes "file") && decide (u.path ≠ [])
  | _ => false

/-- Lookup in a member list (insertion order, unique keys). -/
def lookupMem : List (List Nat × Json) → List Nat → Option Json
  | [], _ => none
  | (k0, v) :: t, k => if k0 = k then some v else lookupMem t k

/-- Dictionary lookup on a json object. -/
def lookupJ : Json → List Nat → Option Json
  | .obj kvs, k => lookupMem kvs k
  | _, _ => none

/-- Python `dict.get(k)`: identifying the Python `None` result with json
`null` (json `null` decodes to `None`, so the two coincide). -/
def pyGet (o : Json) (k : List Nat) : Json :=
  match lookupJ o k with
  | some v => v
  | none => .null

/-- Python `dict.get(k, default)`: the default applies only when the key is
absent; a stored `null` is returned as `null`. -/
def pyGetD (o : Json) (k : List Nat) (d : Json) : Json :=
  match lookupJ o k with
  | some v => v
  | none => d

/-- The value is a dict (`isinstance(v, dict)`). -/
def Json.isObj : Json → Bool
  | .obj _ => true
  | _ => false

/-- The value is Python `None` / json `null`. -/
def Json.isNull : Json → Bool
  | .null => true
  | _ => false

/-- Python `v == "literal"` for a json value against a string. -/
def jsonEqStrC (j : Json) (s : List Nat) : Bool :=
  match j with
  | .str cs => decide (cs = s)
  | _ => false

/-- The `methods_requiring_doc_uri` set. -/
def docMethodCodes : List (List Nat) :=
  [strCodes "textDocument/didOpen", strCodes "textDocument/didChange",
   strCodes "textDocument/hover", strCodes "textDocument/completion",
   strCodes "$/lean/plainGoal", strCodes "$/lean/plainTermGoal"]

/-- `method in methods_requiring_doc_uri`. -/
def methodRequiresUri (m : Json) : Bool :=
  match m with
  | .str cs => decide (cs ∈ docMethodCodes)
  | _ => false

def keyParams : List Nat := strCodes "params"
def keyMethod : List Nat := strCodes "method"
def keyRootUri : List Nat := strCodes "rootUri"
def keyTextDocument : List Nat := strCodes "textDocument"
def keyUri : List Nat := strCodes "uri"
def keyText : List Nat := strCodes "text"
def keyContentChanges : List Nat := strCodes "contentChanges"

/-- One appended entry of the `errors` list of `_validate_lsp_message_uris`
(carrying the data interpolated into the logged string). -/
inductive ValErr where
  | rootUriErr (v : Json) : ValErr
  | docUriErr (method : Json) (v : Json) : ValErr

/-- `_validate_lsp_message_uris`: no check without a dict `params`;
`initialize` requires a valid `rootUri`; the document-addressing methods
require a valid `params.textDocument.uri` (an absent `textDocument` leaves
`uri = None`, which fails `_is_valid_file_uri`); any other method has the
`uri` checked only when it is present. -/
def validateUris (msg : Json) : List ValErr :=
  let params := pyGet msg keyParams
  if params.isObj = false then []
  else
    let method := pyGet msg keyMethod
    let initErrs :=
      if jsonEqStrC method (strCodes "initialize") then
        let rootUri := pyGet params keyRootUri
        if isValidFileUri rootUri then [] else [.rootUriErr rootUri]
      else []
    let td := pyGet params keyTextDocument
    let uri := if td.isObj then pyGet td keyUri else Json.null
    let docErrs :=
      if methodRequiresUri method && !isValidFileUri uri then [.docUriErr method uri]
      else if !uri.isNull && !isValidFileUri uri then [.docUriErr method uri]
      else []
    initErrs ++ docErrs

/-- Outcome of handling one inbound client message in `ws_to_stdin`:
`reject` closes the socket with code 1011 and stops the loop, `crash`
is an exception ending the loop through the generic handler, `forward`
records the mirror-file write (if any) and the framed bytes written to
the process's stdin. -/
inductive StepRes where
  | reject : StepRes
  | crash : StepRes
  | forward (fileWrite : Option (List Nat)) (bytes : List Nat) : StepRes

/-- `_write_lean_file`: the file ends up holding the text when it is a
string; a non-string argument makes the guarded write fail internally
(logged, swallowed), leaving no recorded content. -/
def writeLeanFile (text : Json) : Option (List Nat) :=
  match text with
  | .str s => some s
  | _ => none

/-- Last element of a nonempty list (`changes[-1]`). -/
def lastElem : Json → List Json → Json
  | x, [] => x
  | _, y :: t => lastElem y t

/-- One iteration of `ws_to_stdin` on a decoded message: validate, close on
errors; intercept `didOpen` / `didChange` to sync the mirror file (for
`didChange`, only the last entry of a truthy `contentChanges` is read);
then frame and forward.  Attribute errors from non-dict shapes follow
Python evaluation order and end the loop as `crash`. -/
def wsStep (msg : Json) : StepRes :=
  if msg.isObj = false then .crash
  else
    match validateUris msg with
    | _ :: _ => .reject
    | [] =>
      let method := pyGetD msg keyMethod (Json.str [])
      if jsonEqStrC method (strCodes "textDocument/didOpen") then
        let params := pyGetD msg keyParams (Json.obj [])
        if params.isObj = false then .crash
        else
          let td := pyGetD params keyTextDocument (Json.obj [])
          if td.isObj = false then .crash
          else
            let text := pyGet td keyText
            if text.isNull then .forward none (encodeLspMessage msg)
            else .forward (writeLeanFile text) (encodeLspMessage msg)
      else if jsonEqStrC method (strCodes "textDocument/didChange") then
        let params := pyGetD msg keyParams (Json.obj [])
        if params.isObj = false then .crash
        else
          let changes := pyGetD params keyContentChanges (Json.arr [])
          match changes with
          | .arr [] => .forward none (encodeLspMessage msg)
          | .arr (x :: xs) =>
            let last := lastElem x xs
            if last.isObj = false then .crash
            else
              let text := pyGet last keyText
              if text.isNull then .forward none (encodeLspMessage msg)
              else .forward (writeLeanFile text) (encodeLspMessage msg)
          | .null => .forward none (encodeLspMessage msg)
          | .bool b => if b then .crash else .forward none (encodeLspMessage msg)
          | .num n => if n = 0 then .forward none (encodeLspMessage msg) else .crash
          | .str s => if s = [] then .forward none (encodeLspMessage msg) else .crash
          | .obj [] => .forward none (encodeLspMessage msg)
          | .obj (_ :: _) => .crash
      else .forward none (encodeLspMessage msg)

/-- An `asyncio.subprocess.Process` handle as the manager sees it: its pid
and its `returncode` (still `None` right after a successful spawn). -/
structure Proc where
  pid : Nat
  returncode : Option Int
deriving DecidableEq

/-- `LeanProcessManager` state, plus a log of pids that were terminated
(to observe that teardown killed the backing process). -/
structure MState where
  procs : List (String × Proc)
  killedPids : List Nat
deriving DecidableEq

/-- Dict lookup in the session map. -/
def assocProc : List (String × Proc) → String → Option Proc
  | [], _ => none
  | (s, p) :: t, sid => if s = sid then some p else assocProc t sid

/-- `del d[sid]` / `d.pop(sid, None)` on the session map (dict keys are
unique, so removing every binding of the key is the same operation). -/
def eraseProc : List (String × Proc) → String → List (String × Proc)
  | [], _ => []
  | (s, p) :: t, sid => if s = sid then eraseProc t sid else (s, p) :: eraseProc t sid

/-- `d[sid] = p`: replace in place or append. -/
def setProc : List (String × Proc) → String → Proc → List (String × Proc)
  | [], sid, p => [(sid, p)]
  | (s, q) :: t, sid, p => if s = sid then (s, p) :: t else (s, q) :: setProc t sid p

/-- `LeanProcessManager.spawn`: reuse a live entry unchanged; delete a dead
entry, then attempt process creation (`osRes` is what the OS call yields: a
fresh pid, or a raised error that propagates before any registration). -/
def spawn (st : MState) (sid : String) (osRes : Except String Nat) :
    MState × Except String Proc :=
  match assocProc st.procs sid with
  | some p =>
    if p.returncode = none then (st, .ok p)
    else
      let st1 : MState := { st with procs := eraseProc st.procs sid }
      match osRes with
      | .error e => (st1, .error e)
      | .ok pid =>
        let p2 : Proc := ⟨pid, none⟩
        ({ st1 with procs := setProc st1.procs sid p2 }, .ok p2)
  | none =>
    match osRes with
    | .error e => (st, .error e)
    | .ok pid =>
      let p2 : Proc := ⟨pid, none⟩
      ({ st with procs := setProc st.procs sid p2 }, .ok p2)

/-- `LeanProcessManager.kill`: pop the entry; terminate the process when it
is still alive (the graceful/forceful two-phase wait both end with the
process dead, recorded in `killedPids`). -/
def kill (st : MState) (sid : String) : MState :=
  match assocProc st.procs sid with
  | none => st
  | some p =>
    let st1 : MState := { st with procs := eraseProc st.procs sid }
    if p.returncode = none then { st1 with killedPids := st1.killedPids ++ [p.pid] }
    else st1

/-- How the inbound loop of a session ended. -/
inductive EndKind where
  | rejected : EndKind
  | crashed : EndKind
  | disconnected : EndKind
deriving DecidableEq

/-- Observable behaviour of the inbound loop over a finite inbound message
sequence (the list ending modelling client disconnect). -/
structure LoopOut where
  sent : List (List Nat)
  fileWrites : List (List Nat)
  ending : EndKind

/-- Run `ws_to_stdin` over the inbound messages: stop at the first reject or
crash, otherwise forward every message in order. -/
def runLoop : List Json → LoopOut
  | [] => ⟨[], [], .disconnected⟩
  | m :: ms =>
    match wsStep m with
    | .reject => ⟨[], [], .rejected⟩
    | .crash => ⟨[], [], .crashed⟩
    | .forward w bytes =>
      let rest := runLoop ms
      ⟨bytes :: rest.sent,
       (match w with | some c2 => c2 :: rest.fileWrites | none => rest.fileWrites),
       rest.ending⟩

/-- Observable behaviour of one `lsp_ws_handler` connection: what reached
the process stdin, the mirror-file writes, and the explicit abnormal
close (code and reason) if one was issued. -/
structure HandlerOut where
  sent : List (List Nat)
  fileWrites : List (List Nat)
  closeInfo : Option (Nat × List Nat)

/-- `lsp_ws_handler`: spawn (failure closes with 1011 and returns without
teardown), run the forwarding loops, then the `finally` teardown kills the
session's process.  A validation reject closed the socket with
`(1011, "Invalid LSP URI")` from inside the loop. -/
def lspHandler (st : MState) (sid : String) (osRes : Except String Nat)
    (msgs : List Json) : MState × HandlerOut :=
  match spawn st sid osRes with
  | (st1, .error e) => (st1, ⟨[], [], some (1011, strCodes e)⟩)
  | (st1, .ok _) =>
    let L := runLoop msgs
    let st2 := kill st1 sid
    (st2, ⟨L.sent, L.fileWrites,
      if L.ending = .rejected then some (1011, strCodes "Invalid LSP URI") else none⟩)

/-- What `ystore.apply_updates` does on a given call: succeed, raise
`YDocNotFound`, or raise some other error. -/
inductive ReplayRes where
  | okRes : ReplayRes
  | notFoundRes : ReplayRes
  | failRes (e : String) : ReplayRes
deriving DecidableEq

/-- A room's observable state for the sequential `get_room` model: whether
the room object exists in `self.rooms` and its `ready` flag. -/
structure RoomSt where
  made : Bool
  ready : Bool
deriving DecidableEq

/-- Sequential `Server.get_room` for one fixed name: create the room if
absent (`ready=False`), start it, and unless `ready`, replay history —
`YDocNotFound` is swallowed and `ready` is set, any other replay error
propagates out before `ready` is set. -/
def getRoom (s : RoomSt) (res : ReplayRes) : RoomSt × Except String Unit :=
  let s1 := if s.made then s else { made := true, ready := false }
  if s1.ready then (s1, .ok ())
  else
    match res with
    | .okRes => ({ s1 with ready := true }, .ok ())
    | .notFoundRes => ({ s1 with ready := true }, .ok ())
    | .failRes e => (s1, .error e)

/-- Shared state for the two-task interleaving of `get_room` on one fresh
name: the room map entry, the `ready` flag, and counters of room creations
and replay attempts. -/
structure RaceSt where
  roomMade : Bool
  ready : Bool
  created : Nat
  replays : Nat
deriving DecidableEq

/-- One atomic segment of `get_room`, delimited by its `await` points:
pc 0 runs the check-then-insert (no `await` inside, then suspends in
`start_room`); pc 1 runs the `ready` test and, when unset, starts
`apply_updates` (suspending inside it); pc 2 resumes after the replay and
sets `ready`; pc 3 is the returned state. -/
def raceStep (s : RaceSt) (pc : Nat) : RaceSt × Nat :=
  match pc with
  | 0 => (if s.roomMade then s else { s with roomMade := true, created := s.created + 1 }, 1)
  | 1 => if s.ready then (s, 3) else ({ s with replays := s.replays + 1 }, 2)
  | 2 => ({ s with ready := true }, 3)
  | _ => (s, pc)

/-- Run two concurrent `get_room` callers under a schedule (`false` steps
task A, `true` steps task B). -/
def raceRun : List Bool → RaceSt × Nat × Nat → RaceSt × Nat × Nat
  | [], st => st
  | b :: rest, (s, pcA, pcB) =>
    if b then
      let r := raceStep s pcB
      raceRun rest (r.1, pcA, r.2)
    else
      let r := raceStep s pcA
      raceRun rest (r.1, r.2, pcB)

/-- Both callers about to enter `get_room` on a never-before-seen name. -/
def raceInit : RaceSt × Nat × Nat := (⟨false, false, 0, 0⟩, 0, 0)

/-- The character after an integer literal in any well-formed parse context
(a separator, a closing bracket, or nothing): not a digit and not a
fraction or exponent starter. -/
def numBoundary (cs : List Nat) : Bool :=
  match cs with
  | [] => true
  | c :: _ => !isDigitB c && decide (¬(c = 46 ∨ c = 101 ∨ c = 69))

/-! ## Theorems -/

theorem assocProc_setProc_self (l : List (String × Proc)) (sid : String) (p : Proc) :
    assocProc (setProc l sid p) sid = some p := by
  induction l with
  | nil => simp [setProc, assocProc]
  | cons hd t ih =>
    obtain ⟨s, q⟩ := hd
    by_cases h : s = sid
    · simp [setProc, assocProc, h]
    · simp [setProc, assocProc, h, ih]

theorem assocProc_eraseProc_self (l : List (String × Proc)) (sid : String) :
    assocProc (eraseProc l sid) sid = none := by
  induction l with
  | nil => simp [eraseProc, assocProc]
  | cons hd t ih =>
    obtain ⟨s, q⟩ := hd
    by_cases h : s = sid
    · simp [eraseProc, h, ih]
    · simp [eraseProc, assocProc, h, ih]

/-- Claim C4: when the registered process for a session id is still alive
(`returncode is None`), a further `spawn` for that id returns the very
same handle and leaves the session map unchanged, whatever the OS would
have answered — so no second process is registered for the id. -/
theorem c4_spawn_idempotent (st : MState) (sid : String) (p : Proc)
    (osRes : Except String Nat)
    (hlook : assocProc st.procs sid = some p) (halive : p.returncode = none) :
    spawn st sid osRes = (st, .ok p) := by
  simp [spawn, hlook, halive]

/-- Witness for C4 at a concrete live session. -/
theorem c4_spawn_idempotent_witness :
    spawn ⟨[("s", ⟨5, none⟩)], []⟩ "s" (.ok 9) = (⟨[("s", ⟨5, none⟩)], []⟩, .ok ⟨5, none⟩) :=
  c4_spawn_idempotent ⟨[("s", ⟨5, none⟩)], []⟩ "s" ⟨5, none⟩ (.ok 9) rfl rfl

/-- Claim C5: when the registered process for a session id has exited
(its `returncode` is set), the next `spawn` discards the stale entry,
registers a fresh process, and returns a handle distinct from the dead
one; the new handle is what the map then holds for the id. -/
theorem c5_respawn_after_death (st : MState) (sid : String) (p : Proc) (c : Int)
    (newPid : Nat)
    (hlook : assocProc st.procs sid = some p) (hdead : p.returncode = some c) :
    spawn st sid (.ok newPid) =
      ({ st with procs := setProc (eraseProc st.procs sid) sid ⟨newPid, none⟩ },
        .ok (⟨newPid, none⟩ : Proc))
    ∧ (⟨newPid, none⟩ : Proc) ≠ p
    ∧ assocProc (spawn st sid (.ok newPid)).1.procs sid = some ⟨newPid, none⟩ := by
  have hne : (⟨newPid, none⟩ : Proc) ≠ p := by
    intro h
    rw [← h] at hdead
    simp at hdead
  refine ⟨by simp [spawn, hlook, hdead], hne, ?_⟩
  simp [spawn, hlook, hdead, assocProc_setProc_self]

/-- Witness for C5 at a concrete dead session. -/
theorem c5_respawn_after_death_witness :
    spawn ⟨[("s", ⟨5, some 0⟩)], []⟩ "s" (.ok 9) =
      (⟨[("s", ⟨9, none⟩)], []⟩, .ok ⟨9, none⟩)
    ∧ (⟨9, none⟩ : Proc) ≠ ⟨5, some 0⟩
    ∧ assocProc (spawn ⟨[("s", ⟨5, some 0⟩)], []⟩ "s" (.ok 9)).1.procs "s" = some ⟨9, none⟩ :=
  c5_respawn_after_death ⟨[("s", ⟨5, some 0⟩)], []⟩ "s" ⟨5, some 0⟩ 0 9 rfl rfl

/-- Counterexample to claim C10 as stated: with a dead entry registered
under the id, a failing `spawn` does change the session map — the stale
entry was already deleted before the failing OS call. -/
theorem c10_counterexample :
    (spawn ⟨[("s", ⟨7, some 1⟩)], []⟩ "s" (.error "boom")).1.procs ≠
      (⟨[("s", ⟨7, some 1⟩)], []⟩ : MState).procs := by
  simp [spawn, assocProc, eraseProc]

/-- Claim C10 as amended: on the error path of `spawn` nothing is
registered under the session id (a pre-existing dead entry has been
removed), the error propagates, and a later `spawn` for the id performs a
fresh spawn rather than returning a stale handle. -/
theorem c10_spawn_failure_unregisters (st : MState) (sid : String) (e : String)
    (h : assocProc st.procs sid = none ∨
      ∃ p c, assocProc st.procs sid = some p ∧ p.returncode = some c) :
    (spawn st sid (.error e)).2 = .error e
    ∧ assocProc (spawn st sid (.error e)).1.procs sid = none
    ∧ ∀ pid, (spawn (spawn st sid (.error e)).1 sid (.ok pid)).2 = .ok ⟨pid, none⟩ := by
  rcases h with h | ⟨p, c, hlook, hdead⟩
  · refine ⟨by simp [spawn, h], by simp [spawn, h], ?_⟩
    intro pid
    simp [spawn, h]
  · refine ⟨by simp [spawn, hlook, hdead], ?_, ?_⟩
    · simp [spawn, hlook, hdead, assocProc_eraseProc_self]
    · intro pid
      simp [spawn, hlook, hdead, assocProc_eraseProc_self]

/-- Witness for the amended C10 at a concrete dead entry. -/
theorem c10_spawn_failure_unregisters_witness :
    (spawn ⟨[("s", ⟨7, some 1⟩)], []⟩ "s" (.error "boom")).2 = .error "boom"
    ∧ assocProc (spawn ⟨[("s", ⟨7, some 1⟩)], []⟩ "s" (.error "boom")).1.procs "s" = none
    ∧ ∀ pid, (spawn (spawn ⟨[("s", ⟨7, some 1⟩)], []⟩ "s" (.error "boom")).1 "s"
        (.ok pid)).2 = .ok ⟨pid, none⟩ :=
  c10_spawn_failure_unregisters ⟨[("s", ⟨7, some 1⟩)], []⟩ "s" "boom"
    (Or.inr ⟨⟨7, some 1⟩, 1, rfl, rfl⟩)

theorem raceStep_created_inv (s : RaceSt) (pc : Nat)
    (h : s.created = if s.roomMade then 1 else 0) :
    (raceStep s pc).1.created = if (raceStep s pc).1.roomMade then 1 else 0 := by
  match pc with
  | 0 =>
    by_cases hm : s.roomMade
    · simpa [raceStep, hm] using h
    · simp [raceStep, hm]
      simpa [hm] using h
  | 1 =>
    by_cases hr : s.ready <;> simpa [raceStep, hr] using h
  | 2 => simpa [raceStep] using h
  | (n + 3) => simpa [raceStep] using h

theorem raceRun_created_inv (sched : List Bool) :
    ∀ (s : RaceSt) (pcA pcB : Nat), s.created = (if s.roomMade then 1 else 0) →
      (raceRun sched (s, pcA, pcB)).1.created =
        if (raceRun sched (s, pcA, pcB)).1.roomMade then 1 else 0 := by
  induction sched with
  | nil => intro s pcA pcB h; simpa [raceRun] using h
  | cons b rest ih =>
    intro s pcA pcB h
    cases b
    · simpa [raceRun] using ih (raceStep s pcA).1 (raceStep s pcA).2 pcB
        (raceStep_created_inv s pcA h)
    · simpa [raceRun] using ih (raceStep s pcB).1 pcA (raceStep s pcB).2
        (raceStep_created_inv s pcB h)

/-- Counterexample to claim C6 as stated: under the interleaving in which
caller A suspends inside the history replay before the `ready` flag is
set, caller B also observes `ready = False` and starts a second replay —
two replay attempts for a single room. -/
theorem c6_counterexample :
    (raceRun [false, false, true, true] raceInit).1.created = 1
    ∧ (raceRun [false, false, true, true] raceInit).1.replays = 2 := by
  constructor <;> rfl

/-- Claim C6 as amended: the check-then-insert of `get_room` runs without
an intervening `await`, so at most one room object is ever created per
name under every interleaving of two concurrent callers; but the replay
guard reads `ready` before the replay `await` and sets it only after, so
some interleavings perform the persisted-history replay twice. -/
theorem c6_room_created_once_replay_races (sched : List Bool) :
    (raceRun sched raceInit).1.created ≤ 1
    ∧ (raceRun [false, false, true, true] raceInit).1.created = 1
    ∧ (raceRun [false, false, true, true] raceInit).1.replays = 2 := by
  refine ⟨?_, rfl, rfl⟩
  have h := raceRun_created_inv sched ⟨false, false, 0, 0⟩ 0 0 (by simp)
  rw [show raceInit = ((⟨false, false, 0, 0⟩ : RaceSt), 0, 0) from rfl]
  rw [h]
  split <;> omega

/-- Counterexample to claim C9 as stated: a replay failure other than
`YDocNotFound` propagates out of `get_room` — the call returns no room
handle at all instead of a usable room. -/
theorem c9_counterexample :
    getRoom ⟨false, false⟩ (.failRes "corrupt") = (⟨true, false⟩, .error "corrupt") := rfl

/-- Claim C9 as amended: during the one-time replay, `YDocNotFound`
("no persisted history yet") is tolerated and ignored and the room becomes
ready; any other replay failure propagates out of `get_room`, which then
returns no room handle and leaves `ready` unset, so a later call retries
the replay and can succeed. -/
theorem c9_replay_failure_propagates (s : RoomSt) (e : String) (h : s.ready = false) :
    getRoom s .notFoundRes = (⟨true, true⟩, .ok ())
    ∧ getRoom s (.failRes e) = (⟨true, false⟩, .error e)
    ∧ getRoom (getRoom s (.failRes e)).1 .okRes = (⟨true, true⟩, .ok ()) := by
  obtain ⟨made, ready⟩ := s
  subst h
  cases made <;> simp [getRoom]

/-- Witness for the amended C9 on a fresh room. -/
theorem c9_replay_failure_propagates_witness :
    getRoom ⟨false, false⟩ .notFoundRes = (⟨true, true⟩, .ok ())
    ∧ getRoom ⟨false, false⟩ (.failRes "corrupt") = (⟨true, false⟩, .error "corrupt")
    ∧ getRoom (getRoom ⟨false, false⟩ (.failRes "corrupt")).1 .okRes =
      (⟨true, true⟩, .ok ()) :=
  c9_replay_failure_propagates ⟨false, false⟩ "corrupt" rfl

theorem natDigitsRev_ne_nil (n : Nat) : natDigitsRev n ≠ [] := by
  rw [natDigitsRev]
  split <;> simp

theorem natDigitsRev_le9 (n : Nat) : ∀ d ∈ natDigitsRev n, d ≤ 9 := by
  induction n using Nat.strong_induction_on with
  | _ n ih =>
    rw [natDigitsRev]
    split
    · rename_i h
      intro d hd
      simp at hd
      omega
    · rename_i h
      intro d hd
      simp at hd
      rcases hd with hd | hd
      · omega
      · exact ih (n / 10) (Nat.div_lt_self (by omega) (by omega)) d hd

theorem natCodes_ne_nil (n : Nat) : natCodes n ≠ [] := by
  simp [natCodes, natDigitsRev_ne_nil]

theorem natCodes_digits (n : Nat) : ∀ c ∈ natCodes n, 48 ≤ c ∧ c ≤ 57 := by
  intro c hc
  simp [natCodes] at hc
  obtain ⟨d, hd, hdc⟩ := hc
  have := natDigitsRev_le9 n d hd
  omega

theorem natCodes_cons (n : Nat) : ∃ c t, natCodes n = c :: t ∧ 48 ≤ c ∧ c ≤ 57 := by
  cases h : natCodes n with
  | nil => exact absurd h (natCodes_ne_nil n)
  | cons c t =>
    have hc := natCodes_digits n c (by rw [h]; simp)
    exact ⟨c, t, rfl, hc.1, hc.2⟩

theorem natDigitsRev_foldr (n : Nat) :
    ∀ a, List.foldr (fun d a => 10 * a + d) a (natDigitsRev n) =
      a * 10 ^ (natDigitsRev n).length + n := by
  induction n using Nat.strong_induction_on with
  | _ n ih =>
    intro a
    rw [natDigitsRev]
    split
    · rename_i h
      simp only [List.foldr_cons, List.foldr_nil, List.length_singleton, pow_one]
      omega
    · rename_i h
      have hl := ih (n / 10) (Nat.div_lt_self (by omega) (by omega)) a
      simp only [List.foldr_cons, List.length_cons, hl]
      rw [pow_succ, ← mul_assoc]
      generalize a * 10 ^ (natDigitsRev (n / 10)).length = c
      omega

theorem digitsToNat_natCodes (n : Nat) : digitsToNat (natCodes n) = n := by
  unfold digitsToNat natCodes
  rw [List.foldl_map, List.foldl_reverse]
  simp only [Nat.add_sub_cancel]
  rw [natDigitsRev_foldr n 0]
  simp

theorem takeDigits_append (ds rest : List Nat)
    (hds : ∀ d ∈ ds, isDigitB d = true)
    (hrest : ∀ c, rest.head? = some c → isDigitB c = false) :
    takeDigits (ds ++ rest) = (ds, rest) := by
  induction ds with
  | nil =>
    cases rest with
    | nil => rfl
    | cons c r =>
      have := hrest c rfl
      simp [takeDigits, this]
  | cons d t ih =>
    have hd := hds d (by simp)
    have ht : ∀ x ∈ t, isDigitB x = true := fun x hx => hds x (by simp [hx])
    simp [takeDigits, hd, ih ht]

theorem numBoundary_head (cs : List Nat) (h : numBoundary cs = true) :
    ∀ c, cs.head? = some c → isDigitB c = false := by
  cases cs with
  | nil => intro c hc; simp at hc
  | cons c r =>
    intro x hx
    simp at hx
    subst hx
    simp [numBoundary] at h
    exact h.1

theorem numBoundary_tailOk (cs : List Nat) (h : numBoundary cs = true) :
    numTailOk cs = true := by
  cases cs with
  | nil => rfl
  | cons c r =>
    simp [numBoundary] at h
    simp [numTailOk]
    omega

theorem parseNum_intCodes (n : Int) (rest : List Nat)
    (hb : numBoundary rest = true) :
    parseNum (intCodes n ++ rest) = some (.num n, rest) := by
  obtain ⟨c, t, hct, hc1, hc2⟩ := natCodes_cons n.natAbs
  have hdigits : ∀ d ∈ natCodes n.natAbs, isDigitB d = true := by
    intro d hd
    have := natCodes_digits n.natAbs d hd
    simp [isDigitB]
    omega
  have htake : takeDigits (natCodes n.natAbs ++ rest) = (natCodes n.natAbs, rest) :=
    takeDigits_append _ _ hdigits (numBoundary_head rest hb)
  have hnn : natCodes n.natAbs ≠ [] := natCodes_ne_nil _
  have htok := numBoundary_tailOk rest hb
  by_cases hneg : n < 0
  · simp only [intCodes, if_pos hneg, List.cons_append]
    simp only [parseNum]
    rw [if_pos trivial]
    simp only [htake]
    rw [if_neg hnn, if_pos htok]
    have hv : (digitsToNat (natCodes n.natAbs) : Int) = -n := by
      rw [digitsToNat_natCodes]
      omega
    rw [hv]
    simp
  · simp only [intCodes, if_neg hneg]
    rw [hct, List.cons_append]
    simp only [parseNum]
    rw [if_neg (by omega : ¬ c = 45)]
    rw [← List.cons_append, ← hct]
    simp only [htake]
    rw [if_neg hnn, if_pos htok]
    have hv : (digitsToNat (natCodes n.natAbs) : Int) = n := by
      rw [digitsToNat_natCodes]
      omega
    rw [hv]

theorem hexValD_hexDig (d : Nat) (h : d < 16) : hexValD (hexDig d) = some d := by
  unfold hexValD hexDig
  by_cases hd : d < 10
  · rw [if_pos hd, if_pos (by omega)]
    congr 1
    omega
  · rw [if_neg hd, if_neg (by omega), if_pos (by omega)]
    congr 1
    omega

theorem hex4Codes_length (n : Nat) : (hex4Codes n).length = 4 := by
  simp [hex4Codes]

theorem hex4Val_hex4Codes (n : Nat) (r : List Nat) (h : n < 65536) :
    hex4Val (hex4Codes n ++ r) = some n := by
  have h1 : n / 4096 % 16 < 16 := Nat.mod_lt _ (by norm_num)
  have h2 : n / 256 % 16 < 16 := Nat.mod_lt _ (by norm_num)
  have h3 : n / 16 % 16 < 16 := Nat.mod_lt _ (by norm_num)
  have h4 : n % 16 < 16 := Nat.mod_lt _ (by norm_num)
  simp only [hex4Codes, List.cons_append, List.nil_append, hex4Val,
    hexValD_hexDig _ h1, hexValD_hexDig _ h2, hexValD_hexDig _ h3, hexValD_hexDig _ h4]
  congr 1
  omega

theorem psr_quote (r : List Nat) : parseStringRest (34 :: r) = some ([], r) := by
  rw [parseStringRest]
  simp

theorem psr_esc (r : List Nat) (x k : Nat) (h : parseEsc r = some (x, k)) :
    parseStringRest (92 :: r) =
      match parseStringRest (r.drop k) with
      | none => none
      | some (s, rest) => some (x :: s, rest) := by
  rw [parseStringRest]
  simp [h]

theorem psr_plain (c : Nat) (r : List Nat) (h1 : c ≠ 34) (h2 : c ≠ 92) (h3 : ¬ c < 32) :
    parseStringRest (c :: r) =
      match parseStringRest r with
      | none => none
      | some (s, rest) => some (c :: s, rest) := by
  rw [parseStringRest]
  simp [h1, h2, h3]
theorem parseEsc_u (n : Nat) (r2 : List Nat) (h : n < 65536)
    (hlo : ¬(55296 ≤ n ∧ n ≤ 56319)) (hhi : ¬(56320 ≤ n ∧ n ≤ 57343)) :
    parseEsc (117 :: (hex4Codes n ++ r2)) = some (n, 5) := by
  rw [parseEsc]
  simp only [hex4Val_hex4Codes _ _ h]
  norm_num
  rw [if_neg hlo, if_neg hhi]

theorem parseEsc_pair (n m : Nat) (r2 : List Nat) (h1 : 55296 ≤ n) (h2 : n ≤ 56319)
    (h3 : 56320 ≤ m) (h4 : m ≤ 57343) :
    parseEsc (117 :: (hex4Codes n ++ (92 :: (117 :: (hex4Codes m ++ r2))))) =
      some (65536 + (n - 55296) * 1024 + (m - 56320), 11) := by
  rw [parseEsc]
  simp only [hex4Val_hex4Codes _ _ (show n < 65536 by omega)]
  norm_num
  rw [if_pos ⟨h1, h2⟩]
  rw [show (hex4Codes n ++ (92 :: (117 :: (hex4Codes m ++ r2)))).drop 4 =
    92 :: (117 :: (hex4Codes m ++ r2)) from rfl]
  simp only [hex4Val_hex4Codes _ _ (show m < 65536 by omega)]
  rw [if_pos ⟨h3, h4⟩]

set_option maxHeartbeats 1000000 in
theorem parseStringRest_escStr (s : List Nat) :
    ∀ rest : List Nat, s.all validScalarB = true →
      parseStringRest (escStr s ++ 34 :: rest) = some (s, rest) := by
  induction s with
  | nil =>
    intro rest h
    simp only [escStr, List.nil_append]
    exact psr_quote rest
  | cons c t ih =>
    intro rest hall
    simp only [List.all_cons, Bool.and_eq_true] at hall
    obtain ⟨hc, ht⟩ := hall
    have IH := ih rest ht
    have hval : c < 55296 ∨ (57343 < c ∧ c ≤ 1114111) := by
      simpa [validScalarB] using hc
    simp only [escStr, List.append_assoc]
    unfold escChar
    split_ifs with h34 h92 h8 h9 h10 h12 h13 hctl hprint hbmp
    · subst h34
      rw [show ([92, 34] : List Nat) ++ (escStr t ++ 34 :: rest) =
        92 :: (34 :: (escStr t ++ 34 :: rest)) from rfl]
      rw [psr_esc _ 34 1 (by rw [parseEsc]; simp)]
      rw [show (34 :: (escStr t ++ 34 :: rest)).drop 1 = escStr t ++ 34 :: rest from rfl]
      rw [IH]
    · subst h92
      rw [show ([92, 92] : List Nat) ++ (escStr t ++ 34 :: rest) =
        92 :: (92 :: (escStr t ++ 34 :: rest)) from rfl]
      rw [psr_esc _ 92 1 (by rw [parseEsc]; simp)]
      rw [show (92 :: (escStr t ++ 34 :: rest)).drop 1 = escStr t ++ 34 :: rest from rfl]
      rw [IH]
    · subst h8
      rw [show ([92, 98] : List Nat) ++ (escStr t ++ 34 :: rest) =
        92 :: (98 :: (escStr t ++ 34 :: rest)) from rfl]
      rw [psr_esc _ 8 1 (by rw [parseEsc]; simp)]
      rw [show (98 :: (escStr t ++ 34 :: rest)).drop 1 = escStr t ++ 34 :: rest from rfl]
      rw [IH]
    · subst h9
      rw [show ([92, 116] : List Nat) ++ (escStr t ++ 34 :: rest) =
        92 :: (116 :: (escStr t ++ 34 :: rest)) from rfl]
      rw [psr_esc _ 9 1 (by rw [parseEsc]; simp)]
      rw [show (116 :: (escStr t ++ 34 :: rest)).drop 1 = escStr t ++ 34 :: rest from rfl]
      rw [IH]
    · subst h10
      rw [show ([92, 110] : List Nat) ++ (escStr t ++ 34 :: rest) =
        92 :: (110 :: (escStr t ++ 34 :: rest)) from rfl]
      rw [psr_esc _ 10 1 (by rw [parseEsc]; simp)]
      rw [show (110 :: (escStr t ++ 34 :: rest)).drop 1 = escStr t ++ 34 :: rest from rfl]
      rw [IH]
    · subst h12
      rw [show ([92, 102] : List Nat) ++ (escStr t ++ 34 :: rest) =
        92 :: (102 :: (escStr t ++ 34 :: rest)) from rfl]
      rw [psr_esc _ 12 1 (by rw [parseEsc]; simp)]
      rw [show (102 :: (escStr t ++ 34 :: rest)).drop 1 = escStr t ++ 34 :: rest from rfl]
      rw [IH]
    · subst h13
      rw [show ([92, 114] : List Nat) ++ (escStr t ++ 34 :: rest) =
        92 :: (114 :: (escStr t ++ 34 :: rest)) from rfl]
      rw [psr_esc _ 13 1 (by rw [parseEsc]; simp)]
      rw [show (114 :: (escStr t ++ 34 :: rest)).drop 1 = escStr t ++ 34 :: rest from rfl]
      rw [IH]
    · rw [show (92 :: 117 :: hex4Codes c) ++ (escStr t ++ 34 :: rest) =
        92 :: (117 :: (hex4Codes c ++ (escStr t ++ 34 :: rest))) from by simp]
      rw [psr_esc _ c 5 (parseEsc_u c _ (by omega) (by omega) (by omega))]
      rw [show (117 :: (hex4Codes c ++ (escStr t ++ 34 :: rest))).drop 5 =
        escStr t ++ 34 :: rest from rfl]
      rw [IH]
    · rw [show ([c] : List Nat) ++ (escStr t ++ 34 :: rest) =
        c :: (escStr t ++ 34 :: rest) from rfl]
      rw [psr_plain c _ h34 h92 (by omega)]
      rw [IH]
    · rw [show (92 :: 117 :: hex4Codes c) ++ (escStr t ++ 34 :: rest) =
        92 :: (117 :: (hex4Codes c ++ (escStr t ++ 34 :: rest))) from by simp]
      rw [psr_esc _ c 5 (parseEsc_u c _ (by omega) (by omega) (by omega))]
      rw [show (117 :: (hex4Codes c ++ (escStr t ++ 34 :: rest))).drop 5 =
        escStr t ++ 34 :: rest from rfl]
      rw [IH]
    · have hc1 : 65536 ≤ c := by omega
      have hc2 : c ≤ 1114111 := by omega
      rw [show ((92 :: 117 :: hex4Codes (55296 + (c - 65536) / 1024)) ++
          (92 :: 117 :: hex4Codes (56320 + (c - 65536) % 1024))) ++ (escStr t ++ 34 :: rest) =
        92 :: (117 :: (hex4Codes (55296 + (c - 65536) / 1024) ++
          (92 :: (117 :: (hex4Codes (56320 + (c - 65536) % 1024) ++
            (escStr t ++ 34 :: rest)))))) from by simp]
      have hesc : parseEsc (117 :: (hex4Codes (55296 + (c - 65536) / 1024) ++
          (92 :: (117 :: (hex4Codes (56320 + (c - 65536) % 1024) ++
            (escStr t ++ 34 :: rest)))))) = some (c, 11) := by
        rw [parseEsc_pair _ _ _ (by omega) (by omega) (by omega) (by omega)]
        have heq : 65536 + (55296 + (c - 65536) / 1024 - 55296) * 1024 +
            (56320 + (c - 65536) % 1024 - 56320) = c := by omega
        rw [heq]
      rw [psr_esc _ c 11 hesc]
      rw [show (117 :: (hex4Codes (55296 + (c - 65536) / 1024) ++
          (92 :: (117 :: (hex4Codes (56320 + (c - 65536) % 1024) ++
            (escStr t ++ 34 :: rest)))))).drop 11 = escStr t ++ 34 :: rest from rfl]
      rw [IH]
theorem skipWs_cons (c : Nat) (r : List Nat) (h : wsB c = false) :
    skipWs (c :: r) = c :: r := by
  simp [skipWs, h]

theorem pv_null (fuel : Nat) (r : List Nat) :
    parseVal (fuel + 1) (110 :: 117 :: 108 :: 108 :: r) = some (.null, r) := by
  rw [parseVal]
  norm_num

theorem pv_true (fuel : Nat) (r : List Nat) :
    parseVal (fuel + 1) (116 :: 114 :: 117 :: 101 :: r) = some (.bool true, r) := by
  rw [parseVal]
  norm_num

theorem pv_false (fuel : Nat) (r : List Nat) :
    parseVal (fuel + 1) (102 :: 97 :: 108 :: 115 :: 101 :: r) = some (.bool false, r) := by
  rw [parseVal]
  norm_num

theorem pv_str (fuel : Nat) (r s rest : List Nat)
    (h : parseStringRest r = some (s, rest)) :
    parseVal (fuel + 1) (34 :: r) = some (.str s, rest) := by
  rw [parseVal]
  norm_num [h]

theorem pv_arrEmpty (fuel : Nat) (r : List Nat) :
    parseVal (fuel + 1) (91 :: 93 :: r) = some (.arr [], r) := by
  rw [parseVal]
  rw [skipWs_cons 93 r (by decide)]
  norm_num

theorem pv_arrNE (fuel : Nat) (r r2 : List Nat) (d : Nat)
    (hr : skipWs r = d :: r2) (hd : ¬ d = 93) :
    parseVal (fuel + 1) (91 :: r) = parseElems fuel (d :: r2) := by
  rw [parseVal]
  norm_num [hr, hd]

theorem pv_objEmpty (fuel : Nat) (r : List Nat) :
    parseVal (fuel + 1) (123 :: 125 :: r) = some (.obj [], r) := by
  rw [parseVal]
  rw [skipWs_cons 125 r (by decide)]
  norm_num

theorem pv_objNE (fuel : Nat) (r r2 : List Nat) (d : Nat)
    (hr : skipWs r = d :: r2) (hd : ¬ d = 125) :
    parseVal (fuel + 1) (123 :: r) = parseMembers fuel (d :: r2) [] := by
  rw [parseVal]
  norm_num [hr, hd]

theorem pv_num (fuel : Nat) (c : Nat) (r : List Nat)
    (hc : c = 45 ∨ (48 ≤ c ∧ c ≤ 57)) :
    parseVal (fuel + 1) (c :: r) = parseNum (c :: r) := by
  have h6 : c = 45 ∨ isDigitB c = true := by
    rcases hc with h | h
    · exact Or.inl h
    · right
      simp [isDigitB]
      omega
  simp only [parseVal]
  rw [if_neg (by omega : ¬ c = 110), if_neg (by omega : ¬ c = 116),
    if_neg (by omega : ¬ c = 102), if_neg (by omega : ¬ c = 34),
    if_neg (by omega : ¬ c = 91), if_neg (by omega : ¬ c = 123), if_pos h6]

theorem intCodes_cons (n : Int) :
    ∃ c t, intCodes n = c :: t ∧ (c = 45 ∨ (48 ≤ c ∧ c ≤ 57)) := by
  obtain ⟨c, t, hct, h1, h2⟩ := natCodes_cons n.natAbs
  by_cases hneg : n < 0
  · exact ⟨45, natCodes n.natAbs, by simp [intCodes, hneg], Or.inl rfl⟩
  · exact ⟨c, t, by simp [intCodes, hneg, hct], Or.inr ⟨h1, h2⟩⟩

theorem dumps_shape (j : Json) : ∃ c t, dumps j = c :: t ∧ wsB c = false ∧ c ≠ 93 := by
  cases j with
  | null => exact ⟨110, [117, 108, 108], by simp [dumps], by decide, by decide⟩
  | bool b =>
    cases b
    · exact ⟨102, [97, 108, 115, 101], by simp [dumps], by decide, by decide⟩
    · exact ⟨116, [114, 117, 101], by simp [dumps], by decide, by decide⟩
  | num n =>
    obtain ⟨c, t, hct, hc⟩ := intCodes_cons n
    refine ⟨c, t, by simp [dumps, hct], by simp [wsB]; omega, by omega⟩
  | str s => exact ⟨34, escStr s ++ [34], by simp [dumps, dumpStr], by decide, by decide⟩
  | arr xs =>
    cases xs with
    | nil => exact ⟨91, [93], by simp [dumps], by decide, by decide⟩
    | cons x t =>
      exact ⟨91, dumps x ++ (sepElems t ++ [93]), by simp [dumps], by decide, by decide⟩
  | obj kvs =>
    cases kvs with
    | nil => exact ⟨123, [125], by simp [dumps], by decide, by decide⟩
    | cons kv t =>
      obtain ⟨k, v⟩ := kv
      exact ⟨123, dumpStr k ++ 58 :: 32 :: (dumps v ++ (sepMembers t ++ [125])),
        by simp [dumps], by decide, by decide⟩

theorem dumps_length_pos (j : Json) : 1 ≤ (dumps j).length := by
  obtain ⟨c, t, hct, _, _⟩ := dumps_shape j
  simp [hct]

theorem keyMem_append (key : List Nat) (a b : List (List Nat × Json)) :
    keyMem key (a ++ b) = (keyMem key a || keyMem key b) := by
  induction a with
  | nil => simp [keyMem]
  | cons kv t ih =>
    obtain ⟨k0, v0⟩ := kv
    simp [keyMem, ih, Bool.or_assoc]

theorem dictInsert_notMem (acc : List (List Nat × Json)) (k : List Nat) (v : Json)
    (h : keyMem k acc = false) :
    dictInsert acc k v = acc ++ [(k, v)] := by
  induction acc with
  | nil => simp [dictInsert]
  | cons kv t ih =>
    obtain ⟨k0, v0⟩ := kv
    simp [keyMem] at h
    simp [dictInsert, h.1, ih h.2]
theorem pe_step (fuel : Nat) (cs : List Nat) (x : Json) (r1 : List Nat)
    (h : parseVal fuel cs = some (x, r1)) :
    parseElems (fuel + 1) cs =
      match skipWs r1 with
      | [] => none
      | d :: r2 =>
        if d = 44 then
          match parseElems fuel (skipWs r2) with
          | some (.arr xs, rest2) => some (.arr (x :: xs), rest2)
          | _ => none
        else if d = 93 then some (.arr [x], r2)
        else none := by
  rw [parseElems, h]

theorem pm_step (fuel : Nat) (r X2 k : List Nat) (acc : List (List Nat × Json))
    (h : parseStringRest r = some (k, X2)) :
    parseMembers (fuel + 1) (34 :: r) acc =
      match skipWs X2 with
      | [] => none
      | d :: r2 =>
        if d = 58 then
          match parseVal fuel (skipWs r2) with
          | none => none
          | some (v, r3) =>
            match skipWs r3 with
            | [] => none
            | e :: r4 =>
              if e = 44 then parseMembers fuel (skipWs r4) (dictInsert acc k v)
              else if e = 125 then some (.obj (dictInsert acc k v), r4)
              else none
        else none := by
  rw [parseMembers]
  norm_num [h]

set_option maxHeartbeats 2000000 in
theorem parse_dumps (fuel : Nat) :
    (∀ j rest, wfJ j = true → (dumps j).length ≤ fuel → numBoundary rest = true →
      parseVal fuel (dumps j ++ rest) = some (j, rest))
    ∧ (∀ x xs rest, wfJ x = true → wfElems xs = true →
        (dumps x ++ sepElems xs).length + 1 ≤ fuel →
        parseElems fuel ((dumps x ++ sepElems xs) ++ 93 :: rest) = some (.arr (x :: xs), rest))
    ∧ (∀ k v kvs acc rest, k.all validScalarB = true → wfJ v = true →
        keyMem k kvs = false → wfMembers kvs = true →
        (∀ key, keyMem key ((k, v) :: kvs) = true → keyMem key acc = false) →
        (dumpStr k ++ 58 :: 32 :: dumps v ++ sepMembers kvs).length + 1 ≤ fuel →
        parseMembers fuel ((dumpStr k ++ 58 :: 32 :: dumps v ++ sepMembers kvs) ++ 125 :: rest)
          acc = some (.obj (acc ++ (k, v) :: kvs), rest)) := by
  induction fuel with
  | zero =>
    refine ⟨?_, ?_, ?_⟩
    · intro j rest _ hlen _
      have := dumps_length_pos j
      omega
    · intro x xs rest _ _ hlen
      omega
    · intro k v kvs acc rest _ _ _ _ _ hlen
      omega
  | succ fuel ih =>
    obtain ⟨ihV, ihE, ihM⟩ := ih
    refine ⟨?_, ?_, ?_⟩
    · intro j rest hwf hlen hnb
      cases j with
      | null =>
        rw [show dumps .null = [110, 117, 108, 108] from by simp [dumps]]
        exact pv_null fuel rest
      | bool b =>
        cases b
        · rw [show dumps (.bool false) = [102, 97, 108, 115, 101] from by simp [dumps]]
          exact pv_false fuel rest
        · rw [show dumps (.bool true) = [116, 114, 117, 101] from by simp [dumps]]
          exact pv_true fuel rest
      | num n =>
        obtain ⟨c, t, hct, hc⟩ := intCodes_cons n
        rw [show dumps (.num n) = intCodes n from by simp [dumps]]
        rw [hct, List.cons_append, pv_num fuel c _ hc, ← List.cons_append, ← hct]
        exact parseNum_intCodes n rest hnb
      | str s =>
        rw [show dumps (.str s) = 34 :: (escStr s ++ [34]) from by simp [dumps, dumpStr]]
        rw [show (34 :: (escStr s ++ [34])) ++ rest = 34 :: (escStr s ++ 34 :: rest) from by simp]
        exact pv_str fuel _ s rest (parseStringRest_escStr s rest (by simpa [wfJ] using hwf))
      | arr xs =>
        cases xs with
        | nil =>
          rw [show dumps (.arr []) = [91, 93] from by simp [dumps]]
          exact pv_arrEmpty fuel rest
        | cons x xs2 =>
          have hwx : wfJ x = true ∧ wfElems xs2 = true := by
            simpa [wfJ, wfElems] using hwf
          obtain ⟨c, t, hct, hws, h93⟩ := dumps_shape x
          rw [show dumps (.arr (x :: xs2)) = 91 :: ((dumps x ++ sepElems xs2) ++ [93]) from by
            simp [dumps]]
          rw [show (91 :: ((dumps x ++ sepElems xs2) ++ [93])) ++ rest =
            91 :: ((dumps x ++ sepElems xs2) ++ 93 :: rest) from by simp]
          have hsk : skipWs ((dumps x ++ sepElems xs2) ++ 93 :: rest) =
              c :: ((t ++ sepElems xs2) ++ 93 :: rest) := by
            rw [hct]
            exact skipWs_cons c _ hws
          rw [pv_arrNE fuel _ _ c hsk h93]
          have hmain := ihE x xs2 rest hwx.1 hwx.2 (by
            rw [show dumps (.arr (x :: xs2)) = 91 :: ((dumps x ++ sepElems xs2) ++ [93]) from by
              simp [dumps]] at hlen
            simp only [List.length_cons, List.length_append, List.length_singleton] at hlen ⊢
            omega)
          rw [hct] at hmain
          simp only [List.cons_append] at hmain
          exact hmain
      | obj kvs =>
        cases kvs with
        | nil =>
          rw [show dumps (.obj []) = [123, 125] from by simp [dumps]]
          exact pv_objEmpty fuel rest
        | cons kv kvs2 =>
          obtain ⟨k, v⟩ := kv
          have hw : k.all validScalarB = true ∧ wfJ v = true ∧ keyMem k kvs2 = false ∧
              wfMembers kvs2 = true := by
            have hww : wfMembers ((k, v) :: kvs2) = true := by simpa [wfJ] using hwf
            simp only [wfMembers, Bool.and_eq_true, Bool.not_eq_true'] at hww
            exact ⟨hww.1.1.1, hww.1.1.2, hww.1.2, hww.2⟩
          rw [show dumps (.obj ((k, v) :: kvs2)) =
            123 :: ((dumpStr k ++ 58 :: 32 :: dumps v ++ sepMembers kvs2) ++ [125]) from by
            simp [dumps]]
          rw [show (123 :: ((dumpStr k ++ 58 :: 32 :: dumps v ++ sepMembers kvs2) ++ [125])) ++
              rest =
            123 :: ((dumpStr k ++ 58 :: 32 :: dumps v ++ sepMembers kvs2) ++ 125 :: rest) from by
            simp]
          have hsk : skipWs ((dumpStr k ++ 58 :: 32 :: dumps v ++ sepMembers kvs2) ++
              125 :: rest) =
              34 :: (((escStr k ++ [34]) ++ 58 :: 32 :: dumps v ++ sepMembers kvs2) ++
                125 :: rest) := by
            rw [show dumpStr k = 34 :: (escStr k ++ [34]) from rfl]
            exact skipWs_cons 34 _ (by decide)
          rw [pv_objNE fuel _ _ 34 hsk (by decide)]
          have hmain := ihM k v kvs2 [] rest hw.1 hw.2.1 hw.2.2.1 hw.2.2.2
            (by intro key _; simp [keyMem])
            (by
              rw [show dumps (.obj ((k, v) :: kvs2)) =
                123 :: ((dumpStr k ++ 58 :: 32 :: dumps v ++ sepMembers kvs2) ++ [125]) from by
                simp [dumps]] at hlen
              simp only [List.length_cons, List.length_append, List.length_singleton] at hlen ⊢
              omega)
          rw [show dumpStr k = 34 :: (escStr k ++ [34]) from rfl] at hmain
          simp only [List.cons_append, List.nil_append] at hmain
          simpa using hmain
    · intro x xs rest hwx hwxs hlen
      have hnb1 : numBoundary (sepElems xs ++ 93 :: rest) = true := by
        cases xs <;> rfl
      have hlenV : (dumps x).length ≤ fuel := by
        simp only [List.length_append] at hlen
        omega
      have hv := ihV x (sepElems xs ++ 93 :: rest) hwx hlenV hnb1
      rw [← List.append_assoc] at hv
      rw [pe_step fuel _ x _ hv]
      cases xs with
      | nil =>
        simp only [sepElems, List.nil_append]
        rw [skipWs_cons 93 rest (by decide)]
        norm_num
      | cons y ys =>
        obtain ⟨cy, ty, hcty, hwsy, h93y⟩ := dumps_shape y
        have hwy : wfJ y = true ∧ wfElems ys = true := by
          simpa [wfElems] using hwxs
        rw [show sepElems (y :: ys) ++ 93 :: rest =
          44 :: (32 :: (dumps y ++ (sepElems ys ++ 93 :: rest))) from by simp [sepElems]]
        rw [skipWs_cons 44 _ (by decide)]
        norm_num
        rw [show skipWs (32 :: (dumps y ++ (sepElems ys ++ 93 :: rest))) =
          skipWs (dumps y ++ (sepElems ys ++ 93 :: rest)) from by simp [skipWs, wsB]]
        rw [show skipWs (dumps y ++ (sepElems ys ++ 93 :: rest)) =
          cy :: (ty ++ (sepElems ys ++ 93 :: rest)) from by
          rw [hcty]; exact skipWs_cons cy _ hwsy]
        have hE := ihE y ys rest hwy.1 hwy.2 (by
          have h1 := dumps_length_pos x
          simp only [List.length_append, sepElems, List.length_cons] at hlen ⊢
          omega)
        rw [hcty] at hE
        simp only [List.cons_append, List.append_assoc] at hE
        rw [hE]
    · intro k v kvs acc rest hkall hwv hkm hwm hdisj hlen
      have hnb2 : numBoundary (sepMembers kvs ++ 125 :: rest) = true := by
        cases kvs with
        | nil => rfl
        | cons kv2 t2 =>
          obtain ⟨k2, v2⟩ := kv2
          rfl
      obtain ⟨cv, tv, hctv, hwsv, h93v⟩ := dumps_shape v
      rw [show (dumpStr k ++ 58 :: 32 :: dumps v ++ sepMembers kvs) ++ 125 :: rest =
        34 :: (escStr k ++ 34 :: (58 :: 32 :: ((dumps v ++ sepMembers kvs) ++ 125 :: rest)))
        from by simp [dumpStr]]
      rw [pm_step fuel _ _ k acc (parseStringRest_escStr k _ hkall)]
      rw [skipWs_cons 58 _ (by decide)]
      norm_num
      rw [show skipWs (32 :: (dumps v ++ (sepMembers kvs ++ 125 :: rest))) =
        skipWs (dumps v ++ (sepMembers kvs ++ 125 :: rest)) from by simp [skipWs, wsB]]
      rw [show skipWs (dumps v ++ (sepMembers kvs ++ 125 :: rest)) =
        cv :: (tv ++ (sepMembers kvs ++ 125 :: rest)) from by
        rw [hctv]; exact skipWs_cons cv _ hwsv]
      have hlenv : (dumps v).length ≤ fuel := by
        have h2 : 2 ≤ (dumpStr k).length := by
          simp [dumpStr]
        simp only [List.length_append, List.length_cons] at hlen
        omega
      have hv := ihV v (sepMembers kvs ++ 125 :: rest) hwv hlenv hnb2
      rw [hctv] at hv
      simp only [List.cons_append] at hv
      rw [hv]
      norm_num
      rw [dictInsert_notMem acc k v (hdisj k (by simp [keyMem]))]
      cases kvs with
      | nil =>
        rw [show sepMembers ([] : List (List Nat × Json)) ++ 125 :: rest = 125 :: rest from rfl]
        rw [skipWs_cons 125 rest (by decide)]
        norm_num
      | cons kv2 t2 =>
        obtain ⟨k2, v2⟩ := kv2
        have hw2 : k2.all validScalarB = true ∧ wfJ v2 = true ∧ keyMem k2 t2 = false ∧
            wfMembers t2 = true := by
          simp only [wfMembers, Bool.and_eq_true, Bool.not_eq_true'] at hwm
          exact ⟨hwm.1.1.1, hwm.1.1.2, hwm.1.2, hwm.2⟩
        rw [show sepMembers ((k2, v2) :: t2) ++ 125 :: rest =
          44 :: (32 :: (dumpStr k2 ++ (58 :: 32 :: (dumps v2 ++ (sepMembers t2 ++ 125 :: rest)))))
          from by simp [sepMembers]]
        rw [skipWs_cons 44 _ (by decide)]
        norm_num
        rw [show skipWs (32 :: (dumpStr k2 ++
            (58 :: 32 :: (dumps v2 ++ (sepMembers t2 ++ 125 :: rest))))) =
          skipWs (dumpStr k2 ++ (58 :: 32 :: (dumps v2 ++ (sepMembers t2 ++ 125 :: rest))))
          from by simp [skipWs, wsB]]
        rw [show skipWs (dumpStr k2 ++ (58 :: 32 :: (dumps v2 ++ (sepMembers t2 ++
            125 :: rest)))) =
          dumpStr k2 ++ (58 :: 32 :: (dumps v2 ++ (sepMembers t2 ++ 125 :: rest))) from by
          rw [show dumpStr k2 = 34 :: (escStr k2 ++ [34]) from rfl]
          exact skipWs_cons 34 _ (by decide)]
        have hdisj2 : ∀ key, keyMem key ((k2, v2) :: t2) = true →
            keyMem key (acc ++ [(k, v)]) = false := by
          intro key hkey
          have h1 : keyMem key acc = false := by
            apply hdisj key
            simp only [keyMem, Bool.or_eq_true] at hkey ⊢
            right
            exact hkey
          have h2 : decide (k = key) = false := by
            by_contra hcon
            simp at hcon
            subst hcon
            rw [hkey] at hkm
            exact absurd hkm (by simp)
          rw [keyMem_append, h1, Bool.false_or]
          simp [keyMem, h2]
        have hM := ihM k2 v2 t2 (acc ++ [(k, v)]) rest hw2.1 hw2.2.1 hw2.2.2.1 hw2.2.2.2
          hdisj2 (by
            have h2 : 2 ≤ (dumpStr k).length := by simp [dumpStr]
            have h3 : 1 ≤ (dumps v).length := dumps_length_pos v
            simp only [List.length_append, List.length_cons, sepMembers] at hlen ⊢
            omega)
        simp only [List.append_assoc, List.cons_append] at hM
        rw [hM]
        simp
theorem loads_dumps (j : Json) (h : wfJ j = true) : loads (dumps j) = some j := by
  obtain ⟨c, t, hct, hws, _⟩ := dumps_shape j
  unfold loads
  have hskip : skipWs (dumps j) = dumps j := by
    rw [hct]
    exact skipWs_cons c _ hws
  rw [hskip]
  have hmain := (parse_dumps ((dumps j).length + 1)).1 j [] h (by omega) rfl
  rw [List.append_nil] at hmain
  rw [hmain]
  simp [skipWs]

theorem dropWhile_append_all (p : Nat → Bool) (a b : List Nat)
    (h : ∀ x ∈ a, p x = true) :
    List.dropWhile p (a ++ b) = List.dropWhile p b := by
  induction a with
  | nil => simp
  | cons c r ih =>
    have hc := h c (by simp)
    simp only [List.cons_append, List.dropWhile_cons, hc, if_true]
    exact ih (fun x hx => h x (by simp [hx]))

theorem takeWhile_append_all (p : Nat → Bool) (a b : List Nat)
    (h : ∀ x ∈ a, p x = true) :
    List.takeWhile p (a ++ b) = a ++ List.takeWhile p b := by
  induction a with
  | nil => simp
  | cons c r ih =>
    have hc := h c (by simp)
    simp only [List.cons_append, List.takeWhile_cons, hc, if_true]
    rw [ih (fun x hx => h x (by simp [hx]))]

theorem readLine_split (a b : List Nat) (ha : ∀ x ∈ a, x ≠ 10) :
    readLine (a ++ 10 :: b) = (a ++ [10], b) := by
  unfold readLine
  have hp : ∀ x ∈ a, (fun x => decide (x ≠ 10)) x = true := by
    intro x hx
    simpa using ha x hx
  rw [dropWhile_append_all _ _ _ hp, takeWhile_append_all _ _ _ hp]
  simp [List.dropWhile_cons, List.takeWhile_cons]

theorem map_asciiRep_id (l : List Nat) (h : ∀ x ∈ l, x ≤ 127) :
    l.map asciiRep = l := by
  induction l with
  | nil => rfl
  | cons c r ih =>
    have hc := h c (by simp)
    simp only [List.map_cons, asciiRep, if_pos hc]
    rw [ih (fun x hx => h x (by simp [hx]))]

theorem beginsWith_self_append (p r : List Nat) : beginsWith p (p ++ r) = true := by
  induction p with
  | nil => rfl
  | cons c t ih => simp [beginsWith, ih]

theorem dropWhile_digits_headed (ds X : List Nat) (h1 : ∀ d ∈ ds, 48 ≤ d ∧ d ≤ 57)
    (h2 : ds ≠ []) :
    List.dropWhile stripB (ds ++ X) = ds ++ X := by
  cases ds with
  | nil => exact absurd rfl h2
  | cons d dr =>
    have hd := h1 d (by simp)
    have : stripB d = false := by
      simp [stripB]
      omega
    simp [List.dropWhile_cons, this]

theorem stripPy_header (ds : List Nat) (h1 : ∀ d ∈ ds, 48 ≤ d ∧ d ≤ 57) (h2 : ds ≠ []) :
    stripPy ((([67, 111, 110, 116, 101, 110, 116, 45, 76, 101, 110, 103, 116, 104, 58, 32] :
        List Nat) ++ (ds ++ [13])) ++ [10]) =
      [67, 111, 110, 116, 101, 110, 116, 45, 76, 101, 110, 103, 116, 104, 58, 32] ++ ds := by
  have hA : List.dropWhile stripB ((([67, 111, 110, 116, 101, 110, 116, 45, 76, 101, 110,
      103, 116, 104, 58, 32] : List Nat) ++ (ds ++ [13])) ++ [10]) =
      (([67, 111, 110, 116, 101, 110, 116, 45, 76, 101, 110, 103, 116, 104, 58, 32] :
        List Nat) ++ (ds ++ [13])) ++ [10] := by
    rw [show ((([67, 111, 110, 116, 101, 110, 116, 45, 76, 101, 110, 103, 116, 104, 58, 32] :
        List Nat) ++ (ds ++ [13])) ++ [10]) =
      67 :: ((([111, 110, 116, 101, 110, 116, 45, 76, 101, 110, 103, 116, 104, 58, 32] :
        List Nat) ++ (ds ++ [13])) ++ [10]) from rfl]
    rw [List.dropWhile_cons, if_neg (by simp [stripB])]
  have hrev : (((([67, 111, 110, 116, 101, 110, 116, 45, 76, 101, 110, 103, 116, 104, 58,
      32] : List Nat) ++ (ds ++ [13])) ++ [10]) : List Nat).reverse =
      10 :: (13 :: (ds.reverse ++ ([32, 58, 104, 116, 103, 110, 101, 76, 45, 116, 110, 101,
        116, 110, 111, 67] : List Nat))) := by
    simp
  unfold stripPy
  rw [hA, hrev]
  rw [List.dropWhile_cons, if_pos (by simp [stripB])]
  rw [List.dropWhile_cons, if_pos (by simp [stripB])]
  rw [dropWhile_digits_headed ds.reverse _ (by
    intro d hd
    exact h1 d (by simpa using hd)) (by simpa using h2)]
  simp

theorem afterColon_header (ds : List Nat) :
    afterColon (([67, 111, 110, 116, 101, 110, 116, 45, 76, 101, 110, 103, 116, 104, 58, 32] :
      List Nat) ++ ds) = 32 :: ds := rfl

theorem lowerAscii_header (ds : List Nat) :
    lowerAscii (([67, 111, 110, 116, 101, 110, 116, 45, 76, 101, 110, 103, 116, 104, 58, 32] :
      List Nat) ++ ds) = clLowerCodes ++ (32 :: lowerAscii ds) := by
  simp only [lowerAscii, List.map_append]
  rfl

theorem stripPy_space_digits (ds : List Nat) (h1 : ∀ d ∈ ds, 48 ≤ d ∧ d ≤ 57)
    (h2 : ds ≠ []) :
    stripPy (32 :: ds) = ds := by
  unfold stripPy
  rw [List.dropWhile_cons, if_pos (by simp [stripB])]
  rw [show List.dropWhile stripB ds = ds from by
    have := dropWhile_digits_headed ds [] h1 h2
    simpa using this]
  cases hrev : ds.reverse with
  | nil => simp at hrev; exact absurd hrev h2
  | cons d dr =>
    have hd : d ∈ ds := by
      have : d ∈ ds.reverse := by simp [hrev]
      simpa using this
    have hdd := h1 d hd
    rw [List.dropWhile_cons, if_neg (by simp [stripB]; omega)]
    rw [← hrev]
    simp

theorem pyInt_space_digits (ds : List Nat) (h1 : ∀ d ∈ ds, 48 ≤ d ∧ d ≤ 57)
    (h2 : ds ≠ []) :
    pyInt (32 :: ds) = some ((digitsToNat ds : Int)) := by
  unfold pyInt
  rw [stripPy_space_digits ds h1 h2]
  cases ds with
  | nil => exact absurd rfl h2
  | cons c r =>
    have hc := h1 c (by simp)
    have h45 : ¬ c = 45 := by omega
    have h43 : ¬ c = 43 := by omega
    have hall : (c :: r).all isDigitB = true := by
      rw [List.all_eq_true]
      intro x hx
      have := h1 x (by simpa using hx)
      simp [isDigitB]
      omega
    simp only [if_neg h45, if_neg h43, if_pos hall]
theorem readHeaders_clLine (ds b : List Nat) (cl : Int)
    (h1 : ∀ d ∈ ds, 48 ≤ d ∧ d ≤ 57) (h2 : ds ≠ []) :
    readHeaders ((([67, 111, 110, 116, 101, 110, 116, 45, 76, 101, 110, 103, 116, 104, 58,
        32] : List Nat) ++ (ds ++ [13])) ++ 10 :: b) cl =
      readHeaders b ((digitsToNat ds : Int)) := by
  have hne10 : ∀ x ∈ (([67, 111, 110, 116, 101, 110, 116, 45, 76, 101, 110, 103, 116, 104,
      58, 32] : List Nat) ++ (ds ++ [13])), x ≠ 10 := by
    intro x hx
    rcases List.mem_append.1 hx with hA | hR
    · fin_cases hA <;> omega
    · rcases List.mem_append.1 hR with hd | h13
      · have := h1 x hd
        omega
      · simp at h13
        omega
  have hle : ∀ x ∈ ((([67, 111, 110, 116, 101, 110, 116, 45, 76, 101, 110, 103, 116, 104,
      58, 32] : List Nat) ++ (ds ++ [13])) ++ [10]), x ≤ 127 := by
    intro x hx
    rcases List.mem_append.1 hx with hB | h10
    · rcases List.mem_append.1 hB with hA | hR
      · fin_cases hA <;> omega
      · rcases List.mem_append.1 hR with hd | h13
        · have := h1 x hd
          omega
        · simp at h13
          omega
    · simp at h10
      omega
  rw [show ((([67, 111, 110, 116, 101, 110, 116, 45, 76, 101, 110, 103, 116, 104, 58, 32] :
      List Nat) ++ (ds ++ [13])) ++ 10 :: b) =
    67 :: ((([111, 110, 116, 101, 110, 116, 45, 76, 101, 110, 103, 116, 104, 58, 32] :
      List Nat) ++ (ds ++ [13])) ++ 10 :: b) from rfl]
  rw [readHeaders]
  rw [show (67 : Nat) :: ((([111, 110, 116, 101, 110, 116, 45, 76, 101, 110, 103, 116, 104,
      58, 32] : List Nat) ++ (ds ++ [13])) ++ 10 :: b) =
    (([67, 111, 110, 116, 101, 110, 116, 45, 76, 101, 110, 103, 116, 104, 58, 32] :
      List Nat) ++ (ds ++ [13])) ++ 10 :: b from rfl]
  rw [readLine_split _ _ hne10]
  have hbw : beginsWith clLowerCodes
      (lowerAscii (([67, 111, 110, 116, 101, 110, 116, 45, 76, 101, 110, 103, 116, 104, 58,
        32] : List Nat) ++ ds)) = true := by
    rw [lowerAscii_header]
    exact beginsWith_self_append _ _
  simp only [map_asciiRep_id _ hle, stripPy_header ds h1 h2,
    afterColon_header ds, pyInt_space_digits ds h1 h2, hbw]
  rw [if_neg (by simp : ¬ ((([67, 111, 110, 116, 101, 110, 116, 45, 76, 101, 110, 103, 116,
    104, 58, 32] : List Nat) ++ (ds ++ [13])) ++ [10] = []))]
  rw [if_neg (by simp : ¬ (([67, 111, 110, 116, 101, 110, 116, 45, 76, 101, 110, 103, 116,
    104, 58, 32] : List Nat) ++ ds = []))]
  simp

theorem readHeaders_blank (b : List Nat) (cl : Int) :
    readHeaders (13 :: (10 :: b)) cl = .doneOut cl b := by
  rw [readHeaders]
  rw [show (13 : Nat) :: (10 :: b) = [13] ++ 10 :: b from rfl]
  rw [readLine_split [13] b (by intro x hx; simp at hx; omega)]
  norm_num
  simp [show stripPy ([asciiRep 13, asciiRep 10] : List Nat) = [] from rfl]

theorem readHeaders_encode (j : Json) (extra : List Nat) :
    readHeaders (encodeLspMessage j ++ extra) (-1) =
      .doneOut (((dumps j).length : Nat) : Int) (dumps j ++ extra) := by
  rw [show encodeLspMessage j ++ extra =
    (([67, 111, 110, 116, 101, 110, 116, 45, 76, 101, 110, 103, 116, 104, 58, 32] :
      List Nat) ++ (natCodes (dumps j).length ++ [13])) ++
      10 :: (13 :: (10 :: (dumps j ++ extra))) from by
    simp [encodeLspMessage]]
  rw [readHeaders_clLine _ _ _ (natCodes_digits _) (natCodes_ne_nil _)]
  rw [digitsToNat_natCodes]
  exact readHeaders_blank _ _

/-- Claim C2: framing round-trip — for every well-formed protocol message,
`read_lsp_message` applied to a stream starting with
`encode_lsp_message(M)` returns exactly `M` and consumes exactly the
encoded bytes.  (Well-formedness: object keys distinct and string
code points unicode scalars, as holds for every Python object;
numbers are integers in this model.) -/
theorem c2_framing_round_trip (j : Json) (extra : List Nat) (h : wfJ j = true) :
    readLspMessage (encodeLspMessage j ++ extra) = (.retMsg j, extra) := by
  unfold readLspMessage
  rw [readHeaders_encode j extra]
  norm_num
  rw [if_neg (by omega : ¬ (((dumps j).length : Int) < 0))]
  rw [loads_dumps j h]

/-- Witness for C2 at a concrete message. -/
theorem c2_framing_round_trip_witness :
    readLspMessage (encodeLspMessage (Json.obj [(strCodes "method",
        Json.str (strCodes "initialized"))]) ++ []) =
      (.retMsg (Json.obj [(strCodes "method", Json.str (strCodes "initialized"))]), []) :=
  c2_framing_round_trip (Json.obj [(strCodes "method", Json.str (strCodes "initialized"))])
    [] (by decide)
/-- Counterexample to claim C7 as stated: a stream whose headers end (blank
line) without any `Content-Length` yields the very same outcome as an
empty stream — the `None` return — not a distinct `FramingError`. -/
theorem c7_counterexample :
    readLspMessage [13, 10] = (.retNone, []) ∧ readLspMessage [] = (.retNone, []) := by
  constructor
  · unfold readLspMessage
    rw [show ([13, 10] : List Nat) = 13 :: (10 :: ([] : List Nat)) from rfl]
    rw [readHeaders_blank [] (-1)]
    norm_num
  · unfold readLspMessage
    rw [show readHeaders [] (-1) = HeaderOut.eofOut from by rw [readHeaders]]

/-- Claim C7 as amended: when the header section is exhausted without a
`Content-Length` (the tracked length stays negative), `read_lsp_message`
returns `None` — the same outcome it reports at end of stream, with no
distinct error. -/
theorem c7_missing_length_same_as_eof (s rest : List Nat) (cl : Int)
    (hdr : readHeaders s (-1) = .doneOut cl rest) (hneg : cl < 0) :
    readLspMessage s = (.retNone, rest) ∧ readLspMessage [] = (.retNone, []) := by
  constructor
  · unfold readLspMessage
    rw [hdr]
    norm_num
    intro hcl
    exact absurd hneg (by omega)
  · unfold readLspMessage
    rw [show readHeaders [] (-1) = HeaderOut.eofOut from by rw [readHeaders]]

/-- Witness for the amended C7 on the blank-line-only stream. -/
theorem c7_missing_length_same_as_eof_witness :
    readLspMessage [13, 10] = (.retNone, []) ∧ readLspMessage [] = (.retNone, []) :=
  c7_missing_length_same_as_eof [13, 10] [] (-1) (readHeaders_blank [] (-1)) (by decide)

theorem runLoop_reject (pre : List Json) (m : Json) (post : List Json)
    (hpre : ∀ x ∈ pre, ∃ w b, wsStep x = .forward w b)
    (hm : wsStep m = .reject) :
    (runLoop (pre ++ m :: post)).ending = .rejected
    ∧ (runLoop (pre ++ m :: post)).sent =
        pre.map (fun x => match wsStep x with | .forward _ b => b | _ => []) := by
  induction pre with
  | nil =>
    simp [List.nil_append, runLoop, hm]
  | cons p t ih =>
    obtain ⟨w, b, hw⟩ := hpre p (by simp)
    have iht := ih (fun x hx => hpre x (by simp [hx]))
    simp only [List.cons_append, runLoop, hw, List.map_cons]
    exact ⟨iht.1, congrArg (List.cons b) iht.2⟩

theorem spawn_ok (st : MState) (sid : String) (pid : Nat) :
    ∃ st1 p, spawn st sid (.ok pid) = (st1, .ok p) ∧ p.returncode = none
      ∧ assocProc st1.procs sid = some p ∧ st1.killedPids = st.killedPids := by
  cases hl : assocProc st.procs sid with
  | none =>
    refine ⟨⟨setProc st.procs sid ⟨pid, none⟩, st.killedPids⟩, ⟨pid, none⟩, ?_, rfl,
      assocProc_setProc_self _ _ _, rfl⟩
    simp [spawn, hl]
  | some p =>
    cases hrc : p.returncode with
    | none =>
      refine ⟨st, p, ?_, hrc, hl, rfl⟩
      simp [spawn, hl, hrc]
    | some c =>
      refine ⟨⟨setProc (eraseProc st.procs sid) sid ⟨pid, none⟩, st.killedPids⟩,
        ⟨pid, none⟩, ?_, rfl, assocProc_setProc_self _ _ _, rfl⟩
      simp [spawn, hl, hrc]

theorem kill_alive (st : MState) (sid : String) (p : Proc)
    (hl : assocProc st.procs sid = some p) (ha : p.returncode = none) :
    kill st sid = ⟨eraseProc st.procs sid, st.killedPids ++ [p.pid]⟩ := by
  unfold kill
  rw [hl]
  simp [ha]

/-- Claim C1: a message failing URI validation aborts the whole bridge —
earlier valid messages were forwarded, the failing one and everything
after it are not, the socket is closed with the abnormal code 1011 and
the reason `"Invalid LSP URI"`, and teardown kills the session's backing
process and removes it from the manager; whereas a `didOpen` carrying the
valid URI `file:///tmp/x.lean` is forwarded to the process framed but
otherwise unchanged. -/
theorem c1_fail_closed (st : MState) (sid : String) (pid : Nat)
    (pre : List Json) (m : Json) (post : List Json)
    (hpre : ∀ x ∈ pre, ∃ w b, wsStep x = .forward w b)
    (hm : wsStep m = .reject) :
    ((lspHandler st sid (.ok pid) (pre ++ m :: post)).2.closeInfo =
        some (1011, strCodes "Invalid LSP URI")
    ∧ (lspHandler st sid (.ok pid) (pre ++ m :: post)).2.sent =
        pre.map (fun x => match wsStep x with | .forward _ b => b | _ => [])
    ∧ (∃ q, (lspHandler st sid (.ok pid) (pre ++ m :: post)).1.killedPids =
        st.killedPids ++ [q])
    ∧ assocProc (lspHandler st sid (.ok pid) (pre ++ m :: post)).1.procs sid = none)
    ∧ (∀ text : List Nat,
        wsStep (Json.obj [(keyMethod, Json.str (strCodes "textDocument/didOpen")),
          (keyParams, Json.obj [(keyTextDocument, Json.obj
            [(keyUri, Json.str (strCodes "file:///tmp/x.lean")),
             (keyText, Json.str text)])])]) =
        .forward (some text) (encodeLspMessage
          (Json.obj [(keyMethod, Json.str (strCodes "textDocument/didOpen")),
            (keyParams, Json.obj [(keyTextDocument, Json.obj
              [(keyUri, Json.str (strCodes "file:///tmp/x.lean")),
               (keyText, Json.str text)])])]))) := by
  obtain ⟨st1, p, hsp, halive, hassoc, hkp⟩ := spawn_ok st sid pid
  have hrl := runLoop_reject pre m post hpre hm
  constructor
  · unfold lspHandler
    rw [hsp]
    simp only [kill_alive st1 sid p hassoc halive, hrl.1, hrl.2]
    refine ⟨by simp, trivial, ⟨p.pid, by simp [hkp]⟩, ?_⟩
    exact assocProc_eraseProc_self _ _
  · intro text
    rfl

/-- Witness for C1: an invalid `didOpen` (uri `"not-a-uri"`) on a fresh
manager, with no messages before it. -/
theorem c1_fail_closed_witness :
    ((lspHandler ⟨[], []⟩ "s" (.ok 1) ([] ++ (Json.obj [(keyMethod,
        Json.str (strCodes "textDocument/didOpen")), (keyParams, Json.obj
        [(keyTextDocument, Json.obj [(keyUri, Json.str (strCodes "not-a-uri"))])])]) ::
        [])).2.closeInfo = some (1011, strCodes "Invalid LSP URI")
    ∧ (lspHandler ⟨[], []⟩ "s" (.ok 1) ([] ++ (Json.obj [(keyMethod,
        Json.str (strCodes "textDocument/didOpen")), (keyParams, Json.obj
        [(keyTextDocument, Json.obj [(keyUri, Json.str (strCodes "not-a-uri"))])])]) ::
        [])).2.sent = List.map (fun x => match wsStep x with | .forward _ b => b | _ => []) []
    ∧ (∃ q, (lspHandler ⟨[], []⟩ "s" (.ok 1) ([] ++ (Json.obj [(keyMethod,
        Json.str (strCodes "textDocument/didOpen")), (keyParams, Json.obj
        [(keyTextDocument, Json.obj [(keyUri, Json.str (strCodes "not-a-uri"))])])]) ::
        [])).1.killedPids = ([] : List Nat) ++ [q])
    ∧ assocProc (lspHandler ⟨[], []⟩ "s" (.ok 1) ([] ++ (Json.obj [(keyMethod,
        Json.str (strCodes "textDocument/didOpen")), (keyParams, Json.obj
        [(keyTextDocument, Json.obj [(keyUri, Json.str (strCodes "not-a-uri"))])])]) ::
        [])).1.procs "s" = none)
    ∧ (∀ text : List Nat,
        wsStep (Json.obj [(keyMethod, Json.str (strCodes "textDocument/didOpen")),
          (keyParams, Json.obj [(keyTextDocument, Json.obj
            [(keyUri, Json.str (strCodes "file:///tmp/x.lean")),
             (keyText, Json.str text)])])]) =
        .forward (some text) (encodeLspMessage
          (Json.obj [(keyMethod, Json.str (strCodes "textDocument/didOpen")),
            (keyParams, Json.obj [(keyTextDocument, Json.obj
              [(keyUri, Json.str (strCodes "file:///tmp/x.lean")),
               (keyText, Json.str text)])])]))) :=
  c1_fail_closed ⟨[], []⟩ "s" 1 [] (Json.obj [(keyMethod,
      Json.str (strCodes "textDocument/didOpen")), (keyParams, Json.obj
      [(keyTextDocument, Json.obj [(keyUri, Json.str (strCodes "not-a-uri"))])])]) []
    (by intro x hx; simp at hx) rfl
/-- Claim C3: for a valid `textDocument/didChange` whose `contentChanges`
is a nonempty array, only the last entry matters: when it carries a string
`text` the mirror file is overwritten with exactly that text, when its
`text` is absent or `None` the disk sync no-ops, and in both cases the
message is forwarded framed but otherwise unchanged. -/
theorem c3_didChange_last_text (msg : Json) (params : List (List Nat × Json))
    (x : Json) (xs : List Json)
    (hobj : msg.isObj = true)
    (hval : validateUris msg = [])
    (hmethod : pyGetD msg keyMethod (Json.str []) =
      Json.str (strCodes "textDocument/didChange"))
    (hparams : pyGetD msg keyParams (Json.obj []) = Json.obj params)
    (hchs : pyGetD (Json.obj params) keyContentChanges (Json.arr []) =
      Json.arr (x :: xs)) :
    (∀ t : List Nat, pyGet (lastElem x xs) keyText = Json.str t →
        wsStep msg = .forward (some t) (encodeLspMessage msg))
    ∧ ((lastElem x xs).isObj = true → pyGet (lastElem x xs) keyText = Json.null →
        wsStep msg = .forward none (encodeLspMessage msg)) := by
  have hne : jsonEqStrC (Json.str (strCodes "textDocument/didChange"))
      (strCodes "textDocument/didOpen") = false := by decide
  have heq : jsonEqStrC (Json.str (strCodes "textDocument/didChange"))
      (strCodes "textDocument/didChange") = true := by decide
  constructor
  · intro t ht
    have hlo : (lastElem x xs).isObj = true := by
      cases hl : lastElem x xs <;> rw [hl] at ht <;> simp [pyGet, lookupJ] at ht
      rfl
    unfold wsStep
    rw [hobj, hval]
    simp only [hmethod, hparams, hchs, hne, heq, Bool.false_eq_true, if_false, if_true,
      Bool.true_eq_false, show (Json.obj params).isObj = true from rfl]
    simp only [hlo, Bool.true_eq_false, if_false, ht]
    simp [Json.isNull, writeLeanFile]
  · intro hlo ht
    unfold wsStep
    rw [hobj, hval]
    simp only [hmethod, hparams, hchs, hne, heq, Bool.false_eq_true, if_false, if_true,
      Bool.true_eq_false, show (Json.obj params).isObj = true from rfl]
    simp only [hlo, Bool.true_eq_false, if_false, ht]
    simp [Json.isNull]
/-- Witness for C3: the spec's end-to-end `didChange` example writes
`theorem t : True := trivial` to the mirror file and forwards the framed
message. -/
theorem c3_didChange_last_text_witness :
    wsStep (Json.obj [(keyMethod, Json.str (strCodes "textDocument/didChange")),
      (keyParams, Json.obj [(keyTextDocument, Json.obj
        [(keyUri, Json.str (strCodes "file:///tmp/x.lean"))]),
        (keyContentChanges, Json.arr [Json.obj
          [(keyText, Json.str (strCodes "theorem t : True := trivial"))]])])]) =
    .forward (some (strCodes "theorem t : True := trivial")) (encodeLspMessage
      (Json.obj [(keyMethod, Json.str (strCodes "textDocument/didChange")),
        (keyParams, Json.obj [(keyTextDocument, Json.obj
          [(keyUri, Json.str (strCodes "file:///tmp/x.lean"))]),
          (keyContentChanges, Json.arr [Json.obj
            [(keyText, Json.str (strCodes "theorem t : True := trivial"))]])])])) :=
  (c3_didChange_last_text
    (Json.obj [(keyMethod, Json.str (strCodes "textDocument/didChange")),
      (keyParams, Json.obj [(keyTextDocument, Json.obj
        [(keyUri, Json.str (strCodes "file:///tmp/x.lean"))]),
        (keyContentChanges, Json.arr [Json.obj
          [(keyText, Json.str (strCodes "theorem t : True := trivial"))]])])])
    [(keyTextDocument, Json.obj [(keyUri, Json.str (strCodes "file:///tmp/x.lean"))]),
     (keyContentChanges, Json.arr [Json.obj
        [(keyText, Json.str (strCodes "theorem t : True := trivial"))]])]
    (Json.obj [(keyText, Json.str (strCodes "theorem t : True := trivial"))]) []
    rfl rfl rfl rfl rfl).1
    (strCodes "theorem t : True := trivial") rfl
/-- Counterexample to claim C8 as stated: a `textDocument/hover` whose
`params` object has no `textDocument` is NOT skipped — with `textDocument`
absent the code evaluates `uri` to `None`, which fails the file-URI check
for a document-addressing method, so validation reports an error and the
message is rejected rather than forwarded. -/
theorem c8_counterexample :
    validateUris (Json.obj [(keyMethod, Json.str (strCodes "textDocument/hover")),
        (keyParams, Json.obj [])]) =
      [.docUriErr (Json.str (strCodes "textDocument/hover")) Json.null]
    ∧ wsStep (Json.obj [(keyMethod, Json.str (strCodes "textDocument/hover")),
        (keyParams, Json.obj [])]) = .reject :=
  ⟨rfl, rfl⟩

/-- Claim C8 as amended: for a message with a dict `params` that has no
`textDocument` object, a document-addressing method FAILS validation (the
`uri` evaluates to `None`, which is not a valid file URI) and the message
is rejected; the check is skipped (no errors) only for methods outside the
document-addressing set (here also excluding `initialize`, whose separate
`rootUri` check is out of scope of this claim). -/
theorem c8_missing_textDocument_rejected (msg : Json) (params : List (List Nat × Json))
    (mcs : List Nat)
    (hobj : msg.isObj = true)
    (hmeth : pyGet msg keyMethod = Json.str mcs)
    (hpar : pyGet msg keyParams = Json.obj params)
    (htd : (pyGet (Json.obj params) keyTextDocument).isObj = false)
    (hinit : mcs ≠ strCodes "initialize") :
    (mcs ∈ docMethodCodes →
        validateUris msg = [.docUriErr (Json.str mcs) Json.null]
        ∧ wsStep msg = .reject)
    ∧ (mcs ∉ docMethodCodes → validateUris msg = []) := by
  have hval : ∀ hm : Bool, (decide (mcs ∈ docMethodCodes)) = hm →
      validateUris msg = (if hm then [.docUriErr (Json.str mcs) Json.null] else []) := by
    intro hm hmem
    unfold validateUris
    rw [hmeth, hpar]
    simp only [show (Json.obj params).isObj = true from rfl, Bool.true_eq_false, if_false,
      jsonEqStrC, decide_eq_true_eq]
    rw [if_neg hinit]
    simp only [htd, Bool.true_eq_false, if_false, methodRequiresUri, hmem]
    cases hm with
    | true => simp [isValidFileUri]
    | false => simp [Json.isNull]
  constructor
  · intro hmem
    have h1 := hval true (by simpa using hmem)
    simp only [if_true] at h1
    refine ⟨h1, ?_⟩
    unfold wsStep
    rw [hobj, h1]
    simp
  · intro hmem
    have h0 := hval false (by simpa using hmem)
    simpa using h0

/-- Witness for the amended C8: the hover message with empty `params` is
rejected with the `None`-uri validation error, and the same message with
method `initialized` (not document-addressing) passes validation. -/
theorem c8_missing_textDocument_rejected_witness :
    (validateUris (Json.obj [(keyMethod, Json.str (strCodes "textDocument/hover")),
          (keyParams, Json.obj [])]) =
        [.docUriErr (Json.str (strCodes "textDocument/hover")) Json.null]
      ∧ wsStep (Json.obj [(keyMethod, Json.str (strCodes "textDocument/hover")),
          (keyParams, Json.obj [])]) = .reject)
    ∧ validateUris (Json.obj [(keyMethod, Json.str (strCodes "initialized")),
          (keyParams, Json.obj [])]) = [] :=
  ⟨(c8_missing_textDocument_rejected
      (Json.obj [(keyMethod, Json.str (strCodes "textDocument/hover")),
        (keyParams, Json.obj [])]) [] (strCodes "textDocument/hover")
      rfl rfl rfl rfl (by decide)).1 (by decide),
   (c8_missing_textDocument_rejected
      (Json.obj [(keyMethod, Json.str (strCodes "initialized")),
        (keyParams, Json.obj [])]) [] (strCodes "initialized")
      rfl rfl rfl rfl (by decide)).2 (by decide)⟩

end Bridge
